import Mathlib

/-!
Verification development for the demographic-analysis engine
(`utils/data_processor.py`, `utils/advanced_analytics.py`,
`utils/heatmap_fix.py`, `utils/improved_heatmap.py`,
`utils/data_health_checker.py`).

The Python source is shallowly embedded: pandas DataFrames become explicit
column-list / row-list structures, numbers become exact rationals (the source
uses floats only for display rounding, which is treated as rendering), and
fallible operations return `Except` / `Option`.
-/

namespace Demo

/-! ## String utilities

Python's `col.lower().strip()` and the `pat in s` substring test. -/

/-- `chStarts h p` is true when `p` is a leading segment of `h`
(character-list version of Python's `str.startswith`). -/
def chStarts : List Char → List Char → Bool
  | _, [] => true
  | [], _ :: _ => false
  | a :: h, b :: p => a == b && chStarts h p

/-- `chHasSub h p` is true when `p` occurs contiguously inside `h`
(character-list version of Python's `pat in s`). -/
def chHasSub : List Char → List Char → Bool
  | [], p => p.isEmpty
  | a :: h, p => chStarts (a :: h) p || chHasSub h p

/-- Python's `pat in s` substring containment on strings. -/
def strHasSub (h p : String) : Bool := chHasSub h.toList p.toList

/-- Python's `s.lower()`. -/
def strLower (s : String) : String := (s.toList.map Char.toLower).asString

/-- Strip leading and trailing whitespace from a character list. -/
def trimChars (l : List Char) : List Char :=
  ((l.dropWhile (·.isWhitespace)).reverse.dropWhile (·.isWhitespace)).reverse

/-- Python's `s.lower().strip()` normalisation used throughout the source. -/
def norm (s : String) : String := (trimChars (s.toList.map Char.toLower)).asString

/-! ## Demographic Classifier (`DataProcessor.get_demographic_columns`) -/

/-- The approved demographic-column whitelist from
`get_demographic_columns` (source order preserved). -/
def approvedDemographicPatterns : List String :=
  ["AAM", "AAF", "PCM", "PCF", "LGBTF", "OTHER_M", "OTHER_F",
   "ASM", "ASF", "HM", "HF", "NAM", "NAF", "PIM", "PIF",
   "LEGACY_M", "LEGACY_F", "PC_M", "PC_F",
   "african american male", "african american female", "african american",
   "asian male", "asian female", "asian",
   "caucasian male", "caucasian female", "caucasian", "white",
   "hispanic male", "hispanic female", "hispanic", "latino", "latina",
   "native american male", "native american female", "native american",
   "pacific islander male", "pacific islander female", "pacific islander",
   "lgbt", "lgbtq", "lgbtf", "lgbt female", "lgbt male",
   "legacy", "legacy male", "legacy female",
   "physically challenged", "physically challenged male",
   "physically challenged female",
   "other", "other male", "other female",
   "male", "female"]

/-- The exclusion blacklist from `get_demographic_columns`. -/
def excludePatterns : List String :=
  ["total", "grade", "entity", "component", "desc", "description",
   "id", "name", "date", "time", "page", "folio", "number", "count",
   "row", "index", "file", "path", "url", "link", "reference",
   "score", "rating", "level", "category", "type", "status"]

/-- `DataProcessor.get_demographic_columns`: keep a column iff its
normalised name matches no exclusion pattern and contains some approved
pattern (lowercased).  Exclusion is tested first (`continue`), so it wins. -/
def getDemographicColumns (cols : List String) : List String :=
  cols.filter (fun col =>
    !(excludePatterns.any (fun pat => strHasSub (norm col) pat)) &&
    approvedDemographicPatterns.any (fun pat => strHasSub (norm col) (strLower pat)))

/-! ## Raw tabular data

Cells of a loosely-typed pandas frame: numbers, strings that parse as
numbers under `pd.to_numeric` (duck-typed coercion), raw strings, and NaN. -/

/-- A cell value of the raw input table. `strNum q` is a string cell that
`pd.to_numeric` parses to `q`; `strRaw` is an unparseable string. -/
inductive Val where
  | num (q : ℚ)
  | strNum (q : ℚ)
  | strRaw (s : String)
  | na
  deriving DecidableEq, Repr

/-- `pd.to_numeric(·, errors='coerce').fillna(0)`: numeric and
numeric-string cells keep their value, everything else becomes 0. -/
def toNumericOr0 : Val → ℚ
  | .num q => q
  | .strNum q => q
  | .strRaw _ => 0
  | .na => 0

/-- A raw row: association list from column name to cell value. -/
abbrev RawRow := List (String × Val)

/-- Cell lookup in a row; a missing column reads as NaN. -/
def rowCell (r : RawRow) (c : String) : Val :=
  ((r.find? (fun p => p.1 == c)).map Prod.snd).getD .na

/-- A raw DataFrame: ordered column names plus rows. -/
structure RawFrame where
  cols : List String
  rows : List RawRow
  deriving DecidableEq, Repr

/-! ## Schema Normalizer (`DataProcessor._validate_data`) -/

/-- The `column_mappings` dict of `_validate_data`: each canonical field
with its ordered list of accepted name variants. -/
def columnMappings : List (String × List String) :=
  [("Grade", ["grade", "level", "grade level", "gradelevel"]),
   ("EntityDesc", ["entity", "entitydesc", "entity desc", "entity description",
                   "module", "lesson", "title", "content", "lesson title"]),
   ("Component Desc", ["component", "componentdesc", "component desc",
                       "component description", "activity", "activity type"]),
   ("TOTAL", ["total", "total people", "people", "count", "sum", "total count"])]

/-- Variant list of a canonical field (empty for unknown fields). -/
def variantsOf (f : String) : List String :=
  ((columnMappings.find? (fun p => p.1 == f)).map Prod.snd).getD []

/-- Pass 1 of the column search: the first variant that matches some raw
column name exactly (case-insensitively), returning that raw column. -/
def exactFind (cols : List String) (vars : List String) : Option String :=
  vars.findSome? (fun v => cols.find? (fun c => norm c == v))

/-- Pass 2: the first raw column whose normalised name contains some
variant as a substring. -/
def subFind (cols : List String) (vars : List String) : Option String :=
  cols.find? (fun c => vars.any (fun v => strHasSub (norm c) v))

/-- The whole two-pass search for one canonical field. -/
def fieldFind (cols : List String) (vars : List String) : Option String :=
  (exactFind cols vars).orElse (fun _ => subFind cols vars)

/-- `mapped_columns`: canonical field ↦ matched raw column. -/
def mappedColumns (cols : List String) : List (String × String) :=
  columnMappings.filterMap (fun p => (fieldFind cols p.2).map (fun c => (p.1, c)))

/-- `missing_required`: canonical fields the search could not map,
in `column_mappings` order. -/
def missingRequired (cols : List String) : List String :=
  (columnMappings.filter (fun p => (fieldFind cols p.2).isNone)).map (·.1)

/-- The structured content of the `ValueError` raised by `_validate_data`:
missing canonical fields, the available raw column names, and per missing
field the variant tokens shown (`variations[:3]` in the source). -/
structure SchemaMappingError where
  missing : List String
  available : List String
  suggestions : List (String × List String)
  deriving DecidableEq, Repr

/-- `rename_dict = {v: k for k, v in mapped_columns.items()}`: raw column ↦
canonical name, later entries of the dict comprehension overwriting earlier
ones on collision. -/
def renameCol (mapped : List (String × String)) (c : String) : String :=
  ((mapped.reverse.find? (fun p => p.2 == c)).map Prod.fst).getD c

/-- `self.df.rename(columns=rename_dict)` applied to columns and row keys. -/
def renameFrame (mapped : List (String × String)) (df : RawFrame) : RawFrame :=
  { cols := df.cols.map (renameCol mapped),
    rows := df.rows.map (fun r => r.map (fun p => (renameCol mapped p.1, p.2))) }

/-- `self.df['TOTAL'] = pd.to_numeric(self.df['TOTAL'], errors='coerce').fillna(0)`. -/
def coerceTotal (df : RawFrame) : RawFrame :=
  { cols := df.cols,
    rows := df.rows.map (fun r =>
      r.map (fun p => if p.1 == "TOTAL" then (p.1, Val.num (toNumericOr0 p.2)) else p)) }

/-- `DataProcessor._validate_data`: map raw columns to the four canonical
fields, failing with a `SchemaMappingError` when any field is unmappable,
otherwise renaming matched columns and coercing `TOTAL` to numeric. -/
def validateData (df : RawFrame) : Except SchemaMappingError RawFrame :=
  let missing := missingRequired df.cols
  if missing.isEmpty then
    .ok (coerceTotal (renameFrame (mappedColumns df.cols) df))
  else
    .error { missing := missing,
             available := df.cols,
             suggestions := missing.map (fun f => (f, (variantsOf f).take 3)) }

/-! ## Filtering (`DataProcessor.apply_filters`) -/

/-- One row survives the filter dict when, for every filter entry whose
column exists in the frame and whose value list is non-empty, the row's
cell at that column is among the listed values. -/
def rowPasses (cols : List String) (fs : List (String × List Val)) (r : RawRow) : Bool :=
  fs.all (fun f => !(cols.contains f.1 && !f.2.isEmpty) || (f.2.contains (rowCell r f.1)))

/-- `DataProcessor.apply_filters`: successively restrict the rows by each
filter entry; entries naming an absent column or carrying an empty value
list are skipped. -/
def applyFilters (df : RawFrame) (fs : List (String × List Val)) : RawFrame :=
  fs.foldl (fun acc f =>
    if acc.cols.contains f.1 && !f.2.isEmpty then
      { acc with rows := acc.rows.filter (fun r => f.2.contains (rowCell r f.1)) }
    else acc) df

/-! ## Heap model for aliasing (`DataProcessor.__init__` and copies)

The only in-place pandas mutations in the source (`self.df.rename`
rebinding plus the `self.df['TOTAL'] = …` column write) target
`self.df`, which `__init__` creates as `df.copy()`.  To make the
"never mutates the caller's input" contract non-vacuous we model frames on
an explicit heap: references are indices, `.copy()` allocates a fresh
cell, and in-place writes update the referenced cell. -/

/-- A heap of DataFrames; a reference is an index into the list. -/
abbrev Heap := List RawFrame

/-- Read a reference (missing references read as an empty frame). -/
def hget (h : Heap) (r : Nat) : RawFrame := h.getD r ⟨[], []⟩

/-- `df.copy()`: allocate a fresh cell holding the value of `d`. -/
def halloc (h : Heap) (d : RawFrame) : Nat × Heap := (h.length, h ++ [d])

/-- In-place write to a referenced frame. -/
def hset (h : Heap) (r : Nat) (d : RawFrame) : Heap := h.set r d

/-- The processor state: references to `self.df` and `self.original_df`. -/
structure Proc where
  dfRef : Nat
  origRef : Nat
  deriving DecidableEq, Repr

/-- `DataProcessor.__init__`: copy the caller's frame twice (`self.df`,
`self.original_df`), then run `_validate_data`, whose rename and `TOTAL`
coercion write to `self.df` only.  On a schema-mapping failure the
constructor raises and no processor is produced. -/
def initProcessor (h : Heap) (r : Nat) : Except SchemaMappingError (Proc × Heap) :=
  let d := hget h r
  let (r1, h1) := halloc h d
  let (r2, h2) := halloc h1 d
  match validateData (hget h2 r1) with
  | .error e => .error e
  | .ok d' => .ok ({ dfRef := r1, origRef := r2 }, hset h2 r1 d')

/-- `DataProcessor.apply_filters` in the heap model: copy `self.df` and
filter the copy, returning a reference to the fresh filtered frame. -/
def applyFiltersH (h : Heap) (p : Proc) (fs : List (String × List Val)) : Nat × Heap :=
  let d := hget h p.dfRef
  let (rf, h1) := halloc h d
  (rf, hset h1 rf (applyFilters d fs))

/-! ## Analytics frame

The analytics operations (`calculate_demographic_*`,
`AdvancedDemographicAnalytics`, the heatmap builders, the health checker)
read only `EntityDesc`, `TOTAL` and the demographic count columns, all
numeric after normalisation; rows are therefore embedded with those fields
(the unused `Grade` / `Component Desc` cells are dropped). -/

/-- One normalised row as the analytics code reads it. -/
structure ARow where
  entity : String
  total : ℚ
  cells : List (String × ℚ)
  deriving DecidableEq, Repr

/-- The demographic count of a row in column `c` (0 when absent). -/
def ARow.cell (r : ARow) (c : String) : ℚ :=
  ((r.cells.find? (fun p => p.1 == c)).map Prod.snd).getD 0

/-- A normalised analytics frame: its column names plus its rows. -/
structure AFrame where
  cols : List String
  rows : List ARow
  deriving DecidableEq, Repr

/-- `df['TOTAL'].sum()`. -/
def totalSum (df : AFrame) : ℚ := (df.rows.map (·.total)).sum

/-- `df[c].sum()` for a demographic column. -/
def colSum (df : AFrame) (c : String) : ℚ := (df.rows.map (·.cell c)).sum

/-- The demographic columns that actually exist in the frame
(`if demo_col in df.columns`), keeping the supplied order. -/
def activeCols (df : AFrame) (demoCols : List String) : List String :=
  demoCols.filter (fun c => df.cols.contains c)

/-- Rows of one module (`df[df['EntityDesc'] == e]`). -/
def entityRows (df : AFrame) (e : String) : List ARow :=
  df.rows.filter (fun r => r.entity == e)

/-- `entity_data['TOTAL'].sum()` for one module. -/
def entityTotal (df : AFrame) (e : String) : ℚ :=
  ((entityRows df e).map (·.total)).sum

/-- `entity_data[c].sum()` for one module and demographic column. -/
def entityColSum (df : AFrame) (e : String) (c : String) : ℚ :=
  ((entityRows df e).map (·.cell c)).sum

/-- `df['EntityDesc'].unique()`: entity names in order of first appearance. -/
def uniqueEntities (df : AFrame) : List String :=
  (df.rows.map (·.entity)).dedup

/-! ## Target lookup -/

/-- A `TargetConfiguration`: demographic name ↦ target percentage
(a Python dict, embedded as an association list). -/
abbrev Targets := List (String × ℚ)

/-- `targets.get(k, d)`. -/
def targetsGet (t : Targets) (k : String) (d : ℚ) : ℚ :=
  ((t.find? (fun p => p.1 == k)).map Prod.snd).getD d

/-- `targets.get(k)` without default. -/
def targetsGet? (t : Targets) (k : String) : Option ℚ :=
  (t.find? (fun p => p.1 == k)).map Prod.snd

/-- Target resolution used by `detect_representation_gaps`,
`generate_equity_scorecard`, `create_benchmark_comparison_chart` and both
heatmap builders: `targets.get(demo_col.lower(), targets.get(demo_col, 10))`. -/
def advTargetFor (t : Targets) (c : String) : ℚ :=
  targetsGet t (strLower c) (targetsGet t c 10)

/-- Target resolution used by `DataProcessor.calculate_demographic_gaps`:
`targets.get(demo_col, 0.0)` — original-case key only, default 0. -/
def dpTargetFor (t : Targets) (c : String) : ℚ :=
  targetsGet t c 0

/-- Modelled from the spec: target lookup "tries (lowercased group name,
then original-case group name, then default 10.0) in that order".  Stated
here only for refinement comparison against the source's lookups. -/
def specTargetFor (t : Targets) (c : String) : ℚ :=
  match targetsGet? t (strLower c) with
  | some v => v
  | none => match targetsGet? t c with
            | some v => v
            | none => 10

/-! ## Gap analytics (`DataProcessor.calculate_demographic_gaps`) -/

/-- One gap record (a row of the `gaps_df` DataFrame).  The source stores
`round(·, 2)` of the two percentage fields for display; the embedding keeps
the exact computed values and treats the rounding as rendering. -/
structure GapRec where
  demographic : String
  actualCount : ℚ
  actualPct : ℚ
  targetPct : ℚ
  gap : ℚ
  status : String
  deriving DecidableEq, Repr

/-- `gaps_df.sort_values('Gap')`: insertion sort ascending by `gap`. -/
def insertByGap (x : GapRec) : List GapRec → List GapRec
  | [] => [x]
  | y :: ys => if x.gap ≤ y.gap then x :: y :: ys else y :: insertByGap x ys

/-- Ascending sort of gap records by their `gap` field. -/
def sortByGap : List GapRec → List GapRec
  | [] => []
  | x :: xs => insertByGap x (sortByGap xs)

/-- The gap record built for one demographic column in
`calculate_demographic_gaps`. -/
def mkGapRec (df : AFrame) (targets : Targets) (c : String) : GapRec :=
  let totalPeople := totalSum df
  let actualCount := colSum df c
  let actualPercentage := actualCount / totalPeople * 100
  let targetPercentage := dpTargetFor targets c
  let gap := actualPercentage - targetPercentage
  { demographic := c,
    actualCount := actualCount,
    actualPct := actualPercentage,
    targetPct := targetPercentage,
    gap := gap,
    status := if gap > 0 then "Over Target"
              else if gap < 0 then "Under Target"
              else "On Target" }

/-- `DataProcessor.calculate_demographic_gaps`: empty result when there are
no demographic columns, no rows, or a zero summed `TOTAL`; otherwise one
record per demographic column present in the frame, sorted by gap.
`demoCols` stands for `self.get_demographic_columns()`. -/
def calculateDemographicGaps (demoCols : List String) (df : AFrame)
    (targets : Targets) : List GapRec :=
  if demoCols.isEmpty || df.rows.isEmpty then []
  else if totalSum df = 0 then []
  else sortByGap ((activeCols df demoCols).map (mkGapRec df targets))

/-! ## Per-module percentages (`calculate_demographic_percentages`) -/

/-- First-occurrence deduplication, the order `pd.Series.unique` uses. -/
def uniqueFirst : List String → List String
  | [] => []
  | a :: xs => a :: uniqueFirst (xs.filter (fun b => !(b == a)))
termination_by l => l.length
decreasing_by
  simp only [List.length_cons]
  have := List.length_filter_le (fun b => !(b == a)) xs
  omega

/-- One output row of `calculate_demographic_percentages`.  The source
rounds each percentage with `round(·, 2)` for display; the embedding keeps
the exact values. -/
structure PctRow where
  entity : String
  pcts : List (String × ℚ)
  deriving DecidableEq, Repr

/-- `DataProcessor.calculate_demographic_percentages`: per module (first
appearance order), skipping modules whose summed `TOTAL` is 0; a percentage
for every demographic column, 0 for columns absent from the frame and for
non-positive module totals. -/
def calculateDemographicPercentages (demoCols : List String) (df : AFrame) :
    List PctRow :=
  if demoCols.isEmpty || df.rows.isEmpty then []
  else
    (uniqueFirst (df.rows.map (·.entity))).filterMap (fun e =>
      if (entityRows df e).isEmpty then none
      else if entityTotal df e = 0 then none
      else some
        { entity := e,
          pcts := demoCols.map (fun c =>
            (c, if df.cols.contains c then
                  (if entityTotal df e > 0 then
                     entityColSum df e c / entityTotal df e * 100
                   else 0)
                else 0)) })

/-! ## Equity scorecard (`AdvancedDemographicAnalytics.generate_equity_scorecard`) -/

/-- One demographic's scorecard entry: equity score, actual and target
percentage, and signed gap. -/
structure ScoreRec where
  score : ℚ
  actual : ℚ
  target : ℚ
  gap : ℚ
  deriving DecidableEq, Repr

/-- The per-demographic scores of `generate_equity_scorecard`.  The source
computes `actual_pct = (actual_count / total_people) * 100` without
guarding `total_people == 0`; a zero total therefore yields undefined
values (NaN under numpy), embedded as `none`. -/
def scorecardEntries (demoCols : List String) (df : AFrame) (targets : Targets) :
    List (String × Option ScoreRec) :=
  (activeCols df demoCols).map (fun c =>
    (c, if totalSum df = 0 then none
        else
          let actualPct := colSum df c / totalSum df * 100
          let targetPct := advTargetFor targets c
          let gap := |actualPct - targetPct|
          some { score := max 0 (100 - gap * 5),
                 actual := actualPct,
                 target := targetPct,
                 gap := actualPct - targetPct }))

/-! ## Module gap analysis (`AdvancedDemographicAnalytics.detect_representation_gaps`) -/

/-- The per-demographic gap dict built for one module:
`gap = actual_pct − target_pct` with the lowercase-first target lookup. -/
def moduleGaps (demoCols : List String) (df : AFrame) (targets : Targets)
    (e : String) : List (String × ℚ) :=
  (activeCols df demoCols).map (fun c =>
    (c, entityColSum df e c / entityTotal df e * 100 - advTargetFor targets c))

/-- Python's `max(gaps, key=gaps.get)` paired with `max(gaps.values())`:
the first entry attaining the maximum value. -/
def argmaxQ : List (String × ℚ) → Option (String × ℚ)
  | [] => none
  | p :: ps => some (ps.foldl (fun acc q => if q.2 > acc.2 then q else acc) p)

/-- `min(gaps, key=gaps.get)` with `min(gaps.values())`. -/
def argminQ : List (String × ℚ) → Option (String × ℚ)
  | [] => none
  | p :: ps => some (ps.foldl (fun acc q => if q.2 < acc.2 then q else acc) p)

/-- One row of the module gap analysis produced by
`detect_representation_gaps`. -/
structure ModGapRec where
  module : String
  totalPeople : ℚ
  overDemo : String
  overGap : ℚ
  underDemo : String
  underGap : ℚ
  gapRange : ℚ
  deriving DecidableEq, Repr

/-- `sort_values('Gap_Range', ascending=False)`: insertion sort descending. -/
def insertByRange (x : ModGapRec) : List ModGapRec → List ModGapRec
  | [] => [x]
  | y :: ys => if x.gapRange ≥ y.gapRange then x :: y :: ys else y :: insertByRange x ys

/-- Descending sort of module gap records by `gapRange`. -/
def sortByRange : List ModGapRec → List ModGapRec
  | [] => []
  | x :: xs => insertByRange x (sortByRange xs)

/-- `AdvancedDemographicAnalytics.detect_representation_gaps`: per module
with non-zero summed `TOTAL` and a non-empty gap dict, report the first
largest-overrepresented and largest-underrepresented demographic and the
gap range, ranked by gap range descending. -/
def detectRepresentationGaps (demoCols : List String) (df : AFrame)
    (targets : Targets) : List ModGapRec :=
  sortByRange ((uniqueFirst (df.rows.map (·.entity))).filterMap (fun e =>
    if entityTotal df e = 0 then none
    else
      let gaps := moduleGaps demoCols df targets e
      match argmaxQ gaps, argminQ gaps with
      | some mx, some mn =>
          some { module := e, totalPeople := entityTotal df e,
                 overDemo := mx.1, overGap := mx.2,
                 underDemo := mn.1, underGap := mn.2,
                 gapRange := mx.2 - mn.2 }
      | _, _ => none))

/-! ## Diversity metrics

Two implementations exist in the source: `DataProcessor.
calculate_diversity_metrics` normalises by the summed `TOTAL` column,
while `AdvancedDemographicAnalytics.calculate_diversity_index` normalises
a count vector by its own sum. -/

/-- The summed counts of the demographic columns present in the frame. -/
def dpActiveCounts (demoCols : List String) (df : AFrame) : List ℚ :=
  (activeCols df demoCols).map (colSum df)

/-- `Σ p²` over a list of proportions (shared shape of both Simpson
computations). -/
def simpsonSum (ps : List ℚ) : ℚ := (ps.map (fun p => p ^ 2)).sum

/-- One Shannon summand, `−p·ln p` (`shannon_diversity -= proportion *
np.log(proportion)` in the source). -/
noncomputable def shTerm (p : ℚ) : ℝ := -((p : ℝ) * Real.log (p : ℝ))

/-- `Σ −p·ln p` over a list of proportions (shared shape of both Shannon
computations). -/
noncomputable def shannonSum (ps : List ℚ) : ℝ := (ps.map shTerm).sum

/-- Simpson index of `calculate_diversity_metrics`:
`1 − Σ (count/total)²` over all demographic columns, `total` being the
summed `TOTAL` column. -/
def dpSimpson (demoCols : List String) (df : AFrame) : ℚ :=
  1 - simpsonSum ((dpActiveCounts demoCols df).map (fun c => c / totalSum df))

/-- Shannon index of `calculate_diversity_metrics`:
`Σ −p·ln p` over demographic columns with positive count,
`p = count / total` with `total` the summed `TOTAL` column. -/
noncomputable def dpShannon (demoCols : List String) (df : AFrame) : ℝ :=
  shannonSum (((dpActiveCounts demoCols df).filter (fun c => 0 < c)).map
    (fun c => c / totalSum df))

/-- `DataProcessor.calculate_diversity_metrics` (Simpson and Shannon
parts): empty result when there are no demographic columns or the summed
`TOTAL` is 0.  The `representation_balance` entry is not modelled here. -/
noncomputable def calculateDiversityMetrics (demoCols : List String) (df : AFrame) :
    Option (ℚ × ℝ) :=
  if demoCols.isEmpty then none
  else if totalSum df = 0 then none
  else some (dpSimpson demoCols df, dpShannon demoCols df)

/-- `proportions = entity_data / total; proportions = proportions[proportions > 0]`
of `calculate_diversity_index`. -/
def advProportions (v : List ℚ) : List ℚ :=
  (v.map (fun x => x / v.sum)).filter (fun p => 0 < p)

/-- Simpson index of `calculate_diversity_index` (self-normalising):
0 when the vector sums to 0. -/
def advSimpson (v : List ℚ) : ℚ :=
  if v.sum = 0 then 0
  else 1 - simpsonSum (advProportions v)

/-- Shannon index of `calculate_diversity_index` (self-normalising):
0 when the vector sums to 0. -/
noncomputable def advShannon (v : List ℚ) : ℝ :=
  if v.sum = 0 then 0
  else shannonSum (advProportions v)

/-! ## Heatmap builders (`heatmap_fix.create_aligned_heatmap` and
`improved_heatmap.create_improved_heatmap`) -/

/-- Python's `s[:n] + "..." if len(s) > n else s` label truncation. -/
def truncateAt (n : Nat) (s : String) : String :=
  if s.length > n then (s.toList.take n).asString ++ "..." else s

/-- Insertion of a string into an ascending list (for `groupby` key order). -/
def insertStr (s : String) : List String → List String
  | [] => [s]
  | a :: l => if s ≤ a then s :: a :: l else a :: insertStr s l

/-- Ascending sort of strings; `df.groupby('EntityDesc')` iterates group
keys in sorted order. -/
def sortStrings : List String → List String
  | [] => []
  | a :: l => insertStr a (sortStrings l)

/-- The structured content of one hover-text cell: the f-string built by
the heatmap builders names the module, the demographic, the actual
percentage and raw count, the target percentage, the gap and the module
total (numeric display formatting such as `:.1f` is rendering). -/
structure HoverCell where
  module : String
  demo : String
  actualPct : ℚ
  count : ℚ
  targetPct : ℚ
  gap : ℚ
  totalPeople : ℚ
  deriving DecidableEq, Repr

/-- The hover cell `create_aligned_heatmap` builds for one module and
demographic column. -/
def mkHoverCell (df : AFrame) (targets : Targets) (e c : String) : HoverCell :=
  let t := entityTotal df e
  let cnt := if df.cols.contains c then entityColSum df e c else 0
  let actualPct := if t > 0 then cnt / t * 100 else 0
  let target := advTargetFor targets c
  { module := e, demo := c, actualPct := actualPct, count := cnt,
    targetPct := target, gap := actualPct - target, totalPeople := t }

/-- One heatmap row: the module, its (truncated) y-axis label, the numeric
gap row and the parallel hover-text row. -/
structure HeatRow where
  module : String
  yLabel : String
  z : List ℚ
  hover : List HoverCell
  deriving DecidableEq, Repr

/-- The computed part of a heatmap figure: the column keys (demographic
columns, in supplied order) and the rows. -/
structure HeatmapData where
  cols : List String
  rows : List HeatRow
  deriving DecidableEq, Repr

/-- `heatmap_fix.create_aligned_heatmap`: `none` models the "no data"
annotation figures.  Rows iterate `groupby('EntityDesc')` keys in sorted
order, skipping modules with zero summed `TOTAL`; each row's numeric cells
and hover cells are built in one pass over `valid_cols`. -/
def alignedHeatmap (df : AFrame) (demoCols : List String) (targets : Targets) :
    Option HeatmapData :=
  if df.rows.isEmpty || demoCols.isEmpty then none
  else
    let validCols := demoCols.filter (fun c => df.cols.contains c)
    if validCols.isEmpty then none
    else
      let rows := (sortStrings (uniqueFirst (df.rows.map (·.entity)))).filterMap
        (fun e =>
          if entityTotal df e = 0 then none
          else
            let cells := validCols.map (mkHoverCell df targets e)
            some { module := e, yLabel := truncateAt 40 e,
                   z := cells.map (·.gap), hover := cells })
      if rows.isEmpty then none else some { cols := validCols, rows := rows }

/-- The first-pass `row_data` dict of `create_improved_heatmap`: per valid
demographic column, the gap from target for one module. -/
def improvedRowData (df : AFrame) (targets : Targets) (e : String)
    (validCols : List String) : List (String × ℚ) :=
  validCols.map (fun c => (c, (mkHoverCell df targets e c).gap))

/-- The dead `else` branch of the second pass of `create_improved_heatmap`
(`demo_col` not in `row`): numeric cell 0 with a "no data" hover whose gap
text shows `−target`. -/
def improvedMissingCell (df : AFrame) (targets : Targets) (e c : String) : HoverCell :=
  let target := advTargetFor targets c
  { module := e, demo := c, actualPct := 0, count := 0,
    targetPct := target, gap := -target, totalPeople := entityTotal df e }

/-- `improved_heatmap.create_improved_heatmap`: first pass builds per-module
gap dicts over `valid_demographic_cols`; the second pass looks each column
back up in the dict for the numeric cell and recomputes the hover data from
the frame.  `none` models the error/"no data" annotation figures (including
the missing-required-columns check, which demands every requested
demographic column). -/
def improvedHeatmap (df : AFrame) (demoCols : List String) (targets : Targets) :
    Option HeatmapData :=
  if df.rows.isEmpty then none
  else if demoCols.isEmpty then none
  else if !(demoCols.all (fun c => df.cols.contains c)) then none
  else
    let validCols := demoCols.filter (fun c => df.cols.contains c)
    if validCols.isEmpty then none
    else
      let base := (sortStrings (uniqueFirst (df.rows.map (·.entity)))).filterMap
        (fun e =>
          if entityTotal df e = 0 then none
          else some (e, improvedRowData df targets e validCols))
      if base.isEmpty then none
      else some
        { cols := validCols,
          rows := base.map (fun pr =>
            let cells := validCols.map (fun c =>
              match (pr.2.find? (fun p => p.1 == c)).map Prod.snd with
              | some g =>
                  let rec' := mkHoverCell df targets pr.1 c
                  { rec' with gap := g }
              | none => improvedMissingCell df targets pr.1 c)
            let zs := validCols.map (fun c =>
              match (pr.2.find? (fun p => p.1 == c)).map Prod.snd with
              | some g => g
              | none => 0)
            { module := pr.1, yLabel := truncateAt 40 pr.1,
              z := zs, hover := cells }) }

/-! ## Data health checker (`data_health_checker.py`) -/

/-- A row's demographic sum as `_check_total_consistency` computes it:
`sum(row.get(col, 0) for col in demographic_cols if col in self.df.columns)`. -/
def rowDemoSum (demoCols : List String) (df : AFrame) (r : ARow) : ℚ :=
  ((activeCols df demoCols).map (fun c => r.cell c)).sum

/-- Over-attribution findings of `_check_total_consistency`:
`(row index, demographic sum, TOTAL)` for rows with
`demo_sum > TOTAL > 0`. -/
def overTriples (demoCols : List String) (df : AFrame) : List (Nat × ℚ × ℚ) :=
  df.rows.enum.filterMap (fun p =>
    let s := rowDemoSum demoCols df p.2
    if s > p.2.total ∧ p.2.total > 0 then some (p.1, s, p.2.total) else none)

/-- Under-attribution findings: `(row index, unassigned, TOTAL)` for rows
with `demo_sum < TOTAL`, `TOTAL > 0` and more than 10 % of `TOTAL`
unassigned. -/
def underTriples (demoCols : List String) (df : AFrame) : List (Nat × ℚ × ℚ) :=
  df.rows.enum.filterMap (fun p =>
    let s := rowDemoSum demoCols df p.2
    if s < p.2.total ∧ p.2.total > 0 ∧ p.2.total - s > p.2.total * (1 / 10) then
      some (p.1, p.2.total - s, p.2.total)
    else none)

/-- An entry of the health-check report lists (structured stand-ins for the
message strings the checker builds). -/
inductive HealthEntry where
  | rowOver (idx : Nat) (demoSum total : ℚ)
  | moreOver (n : Nat)
  | rowUnder (idx : Nat) (unassigned total : ℚ)
  | moreUnder (n : Nat)
  deriving DecidableEq, Repr

/-- The contribution of `_check_total_consistency` to `self.issues`
(critical): the first five over-attribution rows plus an overflow marker. -/
def consistencyIssues (demoCols : List String) (df : AFrame) : List HealthEntry :=
  let l := overTriples demoCols df
  (l.take 5).map (fun p => .rowOver p.1 p.2.1 p.2.2) ++
    (if l.length > 5 then [.moreOver (l.length - 5)] else [])

/-- The contribution of `_check_total_consistency` to `self.warnings`:
the first three under-attribution rows plus an overflow marker. -/
def consistencyWarnings (demoCols : List String) (df : AFrame) : List HealthEntry :=
  let l := underTriples demoCols df
  (l.take 3).map (fun p => .rowUnder p.1 p.2.1 p.2.2) ++
    (if l.length > 3 then [.moreUnder (l.length - 3)] else [])

/-- `display_health_check_results`: returns `False` ("Action Required:
Please fix these issues before proceeding with analysis") as soon as the
critical list is non-empty, `True` otherwise; warnings never change the
return value. -/
def displayHealthCheckResults (critical _warning _info : List HealthEntry) : Bool :=
  critical.isEmpty

/-- A minimal valid raw frame for the C9 witness. -/
def wRaw : RawFrame :=
  { cols := ["Grade", "EntityDesc", "Component Desc", "TOTAL"],
    rows := [[("Grade", .strRaw "Gr. 4"), ("TOTAL", .strNum 25)]] }

/-- `wRaw` after `_validate_data` (columns already canonical, `TOTAL`
coerced to a number). -/
def wRawV : RawFrame :=
  { cols := ["Grade", "EntityDesc", "Component Desc", "TOTAL"],
    rows := [[("Grade", .strRaw "Gr. 4"), ("TOTAL", .num 25)]] }

/-- A concrete frame for the C1 theorems: one module, `TOTAL` 100,
`AAM` count 1. -/
def c1Frame : AFrame := ⟨["AAM"], [⟨"M1", 100, [("AAM", 1)]⟩]⟩

/-- The single gap record `calculate_demographic_gaps` produces on
`c1Frame` with an empty target configuration. -/
def c1Rec : GapRec :=
  { demographic := "AAM", actualCount := 1, actualPct := 1, targetPct := 0,
    gap := 1, status := "Over Target" }

/-- A concrete frame for the C2 theorems: one module, `TOTAL` 100,
`AAM` count 30. -/
def c2Frame : AFrame := ⟨["AAM"], [⟨"M1", 100, [("AAM", 30)]⟩]⟩

/-- The gap record `calculate_demographic_gaps` produces on `c2Frame`. -/
def c2Rec : GapRec :=
  { demographic := "AAM", actualCount := 30, actualPct := 30, targetPct := 0,
    gap := 30, status := "Over Target" }

/-- The scorecard entry `generate_equity_scorecard` produces on `c2Frame`
(target resolved to the default 10, gap 20, score floored to 0). -/
def c2Score : ScoreRec := { score := 0, actual := 30, target := 10, gap := 20 }

/-- A concrete frame for the C3 theorems: module "M0" with `TOTAL` 0 and
module "M1" with `TOTAL` 50, `AAM` count 5. -/
def c3Frame : AFrame :=
  ⟨["AAM"], [⟨"M0", 0, [("AAM", 0)]⟩, ⟨"M1", 50, [("AAM", 5)]⟩]⟩

/-- A zero-total frame for the C3 theorems. -/
def c3ZFrame : AFrame := ⟨["AAM"], [⟨"M0", 0, [("AAM", 0)]⟩]⟩

/-- A concrete frame for the C6 theorems: the first row over-attributes
(`AAM` 20 against `TOTAL` 10), the second under-attributes (`AAM` 10
against `TOTAL` 100, 90 % unassigned). -/
def c6Frame : AFrame :=
  ⟨["AAM"], [⟨"M1", 10, [("AAM", 20)]⟩, ⟨"M1", 100, [("AAM", 10)]⟩]⟩

/-- A raw frame missing the `EntityDesc` field (for the C7 error case). -/
def c7Raw : RawFrame := ⟨["Grade", "Component", "Total", "Stuff"], []⟩

/-- The error `_validate_data` raises on `c7Raw`. -/
def c7Err : SchemaMappingError :=
  { missing := ["EntityDesc"],
    available := ["Grade", "Component", "Total", "Stuff"],
    suggestions := [("EntityDesc", ["entity", "entitydesc", "entity desc"])] }

/-- A mappable raw frame (for the C7 success case): `EntityDesc` is found
by the exact variant "lesson title", and the `TOTAL` cell is an
unparseable string. -/
def c7RawOk : RawFrame :=
  ⟨["Grade", "Lesson Title", "Component", "Total"], [[("Total", .strRaw "n/a")]]⟩

/-- The canonical frame produced from `c7RawOk`. -/
def c7Ok : RawFrame :=
  ⟨["Grade", "EntityDesc", "Component Desc", "TOTAL"], [[("TOTAL", .num 0)]]⟩

/-- A concrete frame for the C5 counterexample: `TOTAL` 10 but an `AAM`
count of 30 (over-attribution, allowed by the soft sum invariant). -/
def c5Frame : AFrame := ⟨["AAM"], [⟨"M1", 10, [("AAM", 30)]⟩]⟩

/-- A concrete frame for the C5 witness: `TOTAL` 10, `AAM` 5, `AAF` 5. -/
def c5WFrame : AFrame := ⟨["AAM", "AAF"], [⟨"M1", 10, [("AAM", 5), ("AAF", 5)]⟩]⟩

/-- A concrete frame for the C4 witness: one module, `TOTAL` 100,
`AAM` count 20. -/
def c4Frame : AFrame := ⟨["AAM"], [⟨"M1", 100, [("AAM", 20)]⟩]⟩

/-- The hover cell both heatmap builders produce for ("M1", "AAM") on
`c4Frame` with empty targets. -/
def c4Cell : HoverCell := mkHoverCell c4Frame [] "M1" "AAM"

/-- The single heatmap row built on `c4Frame`. -/
def c4Row : HeatRow :=
  { module := "M1", yLabel := truncateAt 40 "M1", z := [c4Cell.gap],
    hover := [c4Cell] }

/-- The heatmap data both builders produce on `c4Frame`. -/
def c4HM : HeatmapData := { cols := ["AAM"], rows := [c4Row] }

/-! # Theorems -/

theorem chStarts_refl (l : List Char) : chStarts l l = true := by
  induction l with
  | nil => rfl
  | cons a h ih => simp [chStarts, ih]

theorem chHasSub_refl (l : List Char) : chHasSub l l = true := by
  cases l with
  | nil => rfl
  | cons a h => simp [chHasSub, chStarts_refl]

theorem strHasSub_refl (s : String) : strHasSub s s = true :=
  chHasSub_refl s.toList

/-- C8: For every column name whose normalised (lowercased, stripped) form
contains an exclusion pattern, `get_demographic_columns` never classifies
it as demographic, even when the name also contains a whitelist token —
the exclusion check runs first and `continue`s past the whitelist. -/
theorem claim_C8_exclusion_wins (cols : List String) (col : String)
    (h : ∃ pat ∈ excludePatterns, strHasSub (norm col) pat = true) :
    col ∉ getDemographicColumns cols := by
  intro hmem
  rw [getDemographicColumns, List.mem_filter] at hmem
  obtain ⟨pat, hpat, hsub⟩ := h
  have hcond := hmem.2
  rw [Bool.and_eq_true] at hcond
  have hany := hcond.1
  rw [Bool.not_eq_true'] at hany
  rw [List.any_eq_false] at hany
  exact absurd hsub (by simpa using hany pat hpat)

/-- Witness for C8: the column "Total Score" matches the exclusion pattern
"score" and is not classified as demographic. -/
theorem claim_C8_exclusion_wins_witness :
    (∃ pat ∈ excludePatterns, strHasSub (norm "Total Score") pat = true) ∧
      "Total Score" ∉ getDemographicColumns ["Total Score", "AAM"] :=
  ⟨⟨"score", by decide, by decide⟩,
   claim_C8_exclusion_wins ["Total Score", "AAM"] "Total Score"
     ⟨"score", by decide, by decide⟩⟩

theorem applyFilters_cons (df : RawFrame) (f : String × List Val)
    (fs : List (String × List Val)) :
    applyFilters df (f :: fs) =
      applyFilters
        (if df.cols.contains f.1 && !f.2.isEmpty then
          { df with rows := df.rows.filter (fun r => f.2.contains (rowCell r f.1)) }
        else df) fs := rfl

theorem applyFilters_cols (fs : List (String × List Val)) :
    ∀ df : RawFrame, (applyFilters df fs).cols = df.cols := by
  induction fs with
  | nil => intro df; rfl
  | cons f fs ih =>
    intro df
    rw [applyFilters_cons]
    by_cases hc : (df.cols.contains f.1 && !f.2.isEmpty) = true
    · rw [if_pos hc]; exact ih _
    · rw [if_neg hc]; exact ih df

theorem rowPasses_iff (cols : List String) (fs : List (String × List Val))
    (r : RawRow) :
    rowPasses cols fs r = true ↔
      ∀ f ∈ fs, f.1 ∈ cols → f.2 ≠ [] → rowCell r f.1 ∈ f.2 := by
  rw [rowPasses, List.all_eq_true]
  refine forall₂_congr ?_
  intro f _
  simp
  tauto

theorem applyFilters_rows (fs : List (String × List Val)) :
    ∀ df : RawFrame, (applyFilters df fs).rows = df.rows.filter (rowPasses df.cols fs) := by
  induction fs with
  | nil =>
    intro df
    have h : rowPasses df.cols [] = fun _ => true := rfl
    rw [applyFilters, List.foldl_nil, h, List.filter_true]
  | cons f fs ih =>
    intro df
    rw [applyFilters_cons]
    by_cases hc : (df.cols.contains f.1 && !f.2.isEmpty) = true
    · rw [if_pos hc, ih _, List.filter_filter]
      apply List.filter_congr
      intro r _
      rw [Bool.and_eq_true] at hc
      obtain ⟨hc1, hc2⟩ := hc
      rw [Bool.not_eq_true'] at hc2
      have h1 : decide (f.1 ∈ df.cols) = true := by simpa using hc1
      simp [rowPasses, hc2, h1, Bool.and_comm]
    · rw [if_neg hc, ih df]
      apply List.filter_congr
      intro r _
      simp only [rowPasses, List.all_cons]
      rw [Bool.not_eq_true] at hc
      rw [hc]
      simp

/-- C10: `apply_filters` returns exactly the rows whose cell value lies in
the given value list for every filter whose column exists in the frame and
whose value list is non-empty; entries naming an absent column or carrying
an empty value list impose no constraint (they are silently skipped), and
the column set is unchanged. -/
theorem claim_C10_applyFilters_semantics (df : RawFrame)
    (fs : List (String × List Val)) (row : RawRow) :
    (applyFilters df fs).cols = df.cols ∧
      (row ∈ (applyFilters df fs).rows ↔
        row ∈ df.rows ∧
          ∀ f ∈ fs, f.1 ∈ df.cols → f.2 ≠ [] → rowCell row f.1 ∈ f.2) := by
  refine ⟨applyFilters_cols fs df, ?_⟩
  rw [applyFilters_rows, List.mem_filter, rowPasses_iff]

/-- Witness for C10: the theorem instantiated at a concrete frame, filter
dict (one live filter, one absent-column entry, one empty-list entry) and
row. -/
theorem claim_C10_applyFilters_semantics_witness :
    (applyFilters ⟨["Grade", "TOTAL"], [[("Grade", Val.strRaw "4")]]⟩
        [("Grade", [Val.strRaw "4"]), ("Nope", [Val.num 1]), ("TOTAL", [])]).cols
      = ["Grade", "TOTAL"] ∧
      ([("Grade", Val.strRaw "4")] ∈
          (applyFilters ⟨["Grade", "TOTAL"], [[("Grade", Val.strRaw "4")]]⟩
            [("Grade", [Val.strRaw "4"]), ("Nope", [Val.num 1]), ("TOTAL", [])]).rows ↔
        [("Grade", Val.strRaw "4")] ∈ [[("Grade", Val.strRaw "4")]] ∧
          ∀ f ∈ [("Grade", [Val.strRaw "4"]), ("Nope", [Val.num 1]), ("TOTAL", ([] : List Val))],
            f.1 ∈ ["Grade", "TOTAL"] → f.2 ≠ [] →
              rowCell [("Grade", Val.strRaw "4")] f.1 ∈ f.2) :=
  claim_C10_applyFilters_semantics
    ⟨["Grade", "TOTAL"], [[("Grade", Val.strRaw "4")]]⟩
    [("Grade", [Val.strRaw "4"]), ("Nope", [Val.num 1]), ("TOTAL", [])]
    [("Grade", Val.strRaw "4")]

theorem hget_append_left (h l : Heap) (r : Nat) (hr : r < h.length) :
    hget (h ++ l) r = hget h r := by
  simp [hget, List.getD_eq_getElem?_getD, List.getElem?_append_left hr]

theorem hget_hset_ne (h : Heap) (i r : Nat) (d : RawFrame) (hne : i ≠ r) :
    hget (hset h i d) r = hget h r := by
  simp [hget, hset, List.getD_eq_getElem?_getD, List.getElem?_set_ne hne]

/-- C9: constructing the processor (which runs `_validate_data`'s rename
and `TOTAL` coercion) and then filtering never mutates the caller's input
frame: the heap cell the caller passed in is unchanged after both
operations.  All in-place writes of the source target the `df.copy()` made
in `__init__` or the `self.df.copy()` made in `apply_filters`; the
analytic `calculate_*` operations only read. -/
theorem claim_C9_no_input_mutation (h : Heap) (r : Nat) (hr : r < h.length)
    (p : Proc) (h' : Heap) (hok : initProcessor h r = .ok (p, h'))
    (fs : List (String × List Val)) :
    hget h' r = hget h r ∧ hget (applyFiltersH h' p fs).2 r = hget h r := by
  rw [initProcessor] at hok
  simp only [halloc] at hok
  cases hv : validateData (hget (h ++ [hget h r] ++ [hget h r]) h.length) with
  | error e => rw [hv] at hok; exact absurd hok (by simp)
  | ok d' =>
    rw [hv] at hok
    simp only [Except.ok.injEq, Prod.mk.injEq] at hok
    obtain ⟨hp, hh⟩ := hok
    have hlen2 : r < (h ++ [hget h r] ++ [hget h r]).length := by
      simp only [List.length_append, List.length_cons, List.length_nil]
      omega
    have h1 : hget h' r = hget h r := by
      rw [← hh, hget_hset_ne _ _ _ _ (by omega),
        hget_append_left _ _ _ (by simp; omega), hget_append_left _ _ _ hr]
    refine ⟨h1, ?_⟩
    have hlen' : h'.length = h.length + 2 := by
      rw [← hh]
      simp [hset]
    rw [applyFiltersH]
    simp only [halloc]
    rw [hget_hset_ne _ _ _ _ (by omega), hget_append_left _ _ _ (by omega), h1]

/-- Witness for C9: a one-cell heap, processor construction and an empty
filter dict leave the caller's frame untouched. -/
theorem claim_C9_no_input_mutation_witness :
    0 < ([wRaw] : Heap).length ∧
      initProcessor [wRaw] 0 = .ok (⟨1, 2⟩, [wRaw, wRawV, wRaw]) ∧
      hget [wRaw, wRawV, wRaw] 0 = hget [wRaw] 0 ∧
      hget (applyFiltersH [wRaw, wRawV, wRaw] ⟨1, 2⟩ []).2 0 = hget [wRaw] 0 := by
  have hok : initProcessor [wRaw] 0 = .ok (⟨1, 2⟩, [wRaw, wRawV, wRaw]) := by rfl
  have := claim_C9_no_input_mutation [wRaw] 0 (by decide) ⟨1, 2⟩
    [wRaw, wRawV, wRaw] hok []
  exact ⟨by decide, hok, this.1, this.2⟩

theorem mem_insertByGap (x y : GapRec) (l : List GapRec) :
    y ∈ insertByGap x l ↔ y = x ∨ y ∈ l := by
  induction l with
  | nil => simp [insertByGap]
  | cons a l ih =>
    rw [insertByGap]
    by_cases hle : x.gap ≤ a.gap
    · simp [hle]
    · rw [if_neg hle]
      simp only [List.mem_cons, ih]
      tauto

theorem mem_sortByGap (y : GapRec) (l : List GapRec) :
    y ∈ sortByGap l ↔ y ∈ l := by
  induction l with
  | nil => simp [sortByGap]
  | cons a l ih =>
    rw [sortByGap, mem_insertByGap, ih]
    simp

theorem statusOf_iffs (g : ℚ) :
    ((if g > 0 then "Over Target" else if g < 0 then "Under Target" else "On Target")
        = "On Target" ↔ g = 0) ∧
      ((if g > 0 then "Over Target" else if g < 0 then "Under Target" else "On Target")
        = "Over Target" ↔ g > 0) ∧
      ((if g > 0 then "Over Target" else if g < 0 then "Under Target" else "On Target")
        = "Under Target" ↔ g < 0) := by
  rcases lt_trichotomy g 0 with h | h | h
  · rw [if_neg (by linarith), if_pos h]
    exact ⟨⟨fun hc => absurd hc (by decide), fun hc => absurd hc (by linarith)⟩,
      ⟨fun hc => absurd hc (by decide), fun hc => absurd hc (by linarith)⟩,
      ⟨fun _ => h, fun _ => rfl⟩⟩
  · rw [if_neg (by linarith), if_neg (by linarith)]
    exact ⟨⟨fun _ => h, fun _ => rfl⟩,
      ⟨fun hc => absurd hc (by decide), fun hc => absurd (h ▸ hc) (by linarith)⟩,
      ⟨fun hc => absurd hc (by decide), fun hc => absurd (h ▸ hc) (by linarith)⟩⟩
  · rw [if_pos h]
    exact ⟨⟨fun hc => absurd hc (by decide), fun hc => absurd hc (by linarith)⟩,
      ⟨fun _ => h, fun _ => rfl⟩,
      ⟨fun hc => absurd hc (by decide), fun hc => absurd hc (by linarith)⟩⟩

theorem mkGapRec_fields (df : AFrame) (targets : Targets) (c : String) :
    (mkGapRec df targets c).gap =
        (mkGapRec df targets c).actualPct - (mkGapRec df targets c).targetPct ∧
      ((mkGapRec df targets c).status = "On Target" ↔ (mkGapRec df targets c).gap = 0) ∧
      ((mkGapRec df targets c).status = "Over Target" ↔ (mkGapRec df targets c).gap > 0) ∧
      ((mkGapRec df targets c).status = "Under Target" ↔ (mkGapRec df targets c).gap < 0) :=
  ⟨rfl, statusOf_iffs (colSum df c / totalSum df * 100 - dpTargetFor targets c)⟩

/-- C1 amended: in every record produced by `calculate_demographic_gaps`,
`gap = actual_pct − target_pct` exactly, and the status is "On Target" iff
`gap = 0`, "Over Target" iff `gap > 0`, "Under Target" iff `gap < 0` —
there is no ±2.0 "on target" band in this operation. -/
theorem claim_C1_gap_status_amended (demoCols : List String) (df : AFrame)
    (targets : Targets) (g : GapRec)
    (hmem : g ∈ calculateDemographicGaps demoCols df targets) :
    g.gap = g.actualPct - g.targetPct ∧
      (g.status = "On Target" ↔ g.gap = 0) ∧
      (g.status = "Over Target" ↔ g.gap > 0) ∧
      (g.status = "Under Target" ↔ g.gap < 0) := by
  rw [calculateDemographicGaps] at hmem
  by_cases h1 : demoCols.isEmpty || df.rows.isEmpty
  · rw [if_pos h1] at hmem
    exact absurd hmem (List.not_mem_nil g)
  · rw [if_neg h1] at hmem
    by_cases h2 : totalSum df = 0
    · rw [if_pos h2] at hmem
      exact absurd hmem (List.not_mem_nil g)
    · rw [if_neg h2, mem_sortByGap, List.mem_map] at hmem
      obtain ⟨c, _, rfl⟩ := hmem
      exact mkGapRec_fields df targets c

theorem c1_eval : calculateDemographicGaps ["AAM"] c1Frame [] = [c1Rec] := by
  norm_num [calculateDemographicGaps, c1Frame, c1Rec, totalSum, colSum, activeCols,
    mkGapRec, sortByGap, insertByGap, dpTargetFor, targetsGet, ARow.cell, List.find?]

/-- Witness for C1 amended: the single record of a concrete frame
(one module, `TOTAL` 100, `AAM` count 1, empty targets). -/
theorem claim_C1_gap_status_amended_witness :
    c1Rec ∈ calculateDemographicGaps ["AAM"] c1Frame [] ∧
      (c1Rec.gap = c1Rec.actualPct - c1Rec.targetPct ∧
        (c1Rec.status = "On Target" ↔ c1Rec.gap = 0) ∧
        (c1Rec.status = "Over Target" ↔ c1Rec.gap > 0) ∧
        (c1Rec.status = "Under Target" ↔ c1Rec.gap < 0)) := by
  have hmem : c1Rec ∈ calculateDemographicGaps ["AAM"] c1Frame [] := by
    rw [c1_eval]; exact List.mem_singleton_self _
  exact ⟨hmem, claim_C1_gap_status_amended ["AAM"] c1Frame [] c1Rec hmem⟩

/-- Counterexample for C1 as stated: with one module of `TOTAL` 100 and an
`AAM` count of 1 (empty target configuration), the produced record has
`|gap| = 1 ≤ 2` yet status "Over Target", so the claimed
`status = on_target ⟺ |gap| ≤ 2.0` fails on `calculate_demographic_gaps`. -/
theorem claim_C1_gap_status_counterexample :
    ∃ g ∈ calculateDemographicGaps ["AAM"] c1Frame [],
      |g.gap| ≤ 2 ∧ g.status ≠ "On Target" := by
  rw [c1_eval]
  refine ⟨_, List.mem_singleton_self _, by norm_num [c1Rec], by decide⟩

theorem targetsGet_eq_getD (t : Targets) (k : String) (d : ℚ) :
    targetsGet t k d = (targetsGet? t k).getD d := rfl

/-- The lookup chain of the advanced-analytics and heatmap operations
coincides with the spec's (lowercased, original, default 10) resolution. -/
theorem adv_eq_spec (t : Targets) (c : String) :
    advTargetFor t c = specTargetFor t c := by
  rw [advTargetFor, specTargetFor, targetsGet_eq_getD, targetsGet_eq_getD]
  cases targetsGet? t (strLower c) with
  | some v => rfl
  | none =>
    cases targetsGet? t c with
    | some v => rfl
    | none => rfl

/-- C2 amended: the (lowercased name, original name, default 10.0) target
resolution holds for the advanced-analytics operations — the equity
scorecard's target and every per-module gap of `detect_representation_gaps`
resolve targets that way — but `calculate_demographic_gaps` instead looks
up only the original-case column name with default 0.0. -/
theorem claim_C2_target_resolution_amended
    (t : Targets) (c e : String) (demoCols : List String) (df : AFrame)
    (g : GapRec) (s : ScoreRec) (p : String × ℚ)
    (hg : g ∈ calculateDemographicGaps demoCols df t)
    (hs : (c, some s) ∈ scorecardEntries demoCols df t)
    (hp : p ∈ moduleGaps demoCols df t e) :
    advTargetFor t c = specTargetFor t c ∧
      s.target = specTargetFor t c ∧
      p.2 = entityColSum df e p.1 / entityTotal df e * 100 - specTargetFor t p.1 ∧
      g.targetPct = targetsGet t g.demographic 0 := by
  refine ⟨adv_eq_spec t c, ?_, ?_, ?_⟩
  · rw [scorecardEntries, List.mem_map] at hs
    obtain ⟨c', _, heq⟩ := hs
    rw [Prod.mk.injEq] at heq
    obtain ⟨rfl, hval⟩ := heq
    by_cases h0 : totalSum df = 0
    · rw [if_pos h0] at hval
      exact absurd hval (by simp)
    · rw [if_neg h0] at hval
      have := Option.some.inj hval
      rw [← this, ← adv_eq_spec]
  · rw [moduleGaps, List.mem_map] at hp
    obtain ⟨c', _, rfl⟩ := hp
    rw [← adv_eq_spec]
  · rw [calculateDemographicGaps] at hg
    by_cases h1 : demoCols.isEmpty || df.rows.isEmpty
    · rw [if_pos h1] at hg
      exact absurd hg (List.not_mem_nil g)
    · rw [if_neg h1] at hg
      by_cases h2 : totalSum df = 0
      · rw [if_pos h2] at hg
        exact absurd hg (List.not_mem_nil g)
      · rw [if_neg h2, mem_sortByGap, List.mem_map] at hg
        obtain ⟨c', _, rfl⟩ := hg
        rfl

theorem c2_gaps_eval : calculateDemographicGaps ["AAM"] c2Frame [] = [c2Rec] := by
  norm_num [calculateDemographicGaps, c2Frame, c2Rec, totalSum, colSum, activeCols,
    mkGapRec, sortByGap, insertByGap, dpTargetFor, targetsGet, ARow.cell, List.find?]

theorem c2_score_eval :
    scorecardEntries ["AAM"] c2Frame [] = [("AAM", some c2Score)] := by
  norm_num [scorecardEntries, c2Frame, c2Score, totalSum, colSum, activeCols,
    advTargetFor, targetsGet, ARow.cell, List.find?, abs]

theorem c2_modgaps_eval :
    moduleGaps ["AAM"] c2Frame [] "M1" = [("AAM", 20)] := by
  norm_num [moduleGaps, c2Frame, entityColSum, entityTotal, entityRows, activeCols,
    advTargetFor, targetsGet, ARow.cell, List.find?]

/-- Witness for C2 amended: concrete record, scorecard entry and module
gap on `c2Frame` with an empty target configuration. -/
theorem claim_C2_target_resolution_amended_witness :
    advTargetFor [] "AAM" = specTargetFor [] "AAM" ∧
      c2Score.target = specTargetFor [] "AAM" ∧
      ("AAM", (20 : ℚ)).2 =
        entityColSum c2Frame "M1" "AAM" / entityTotal c2Frame "M1" * 100 -
          specTargetFor [] "AAM" ∧
      c2Rec.targetPct = targetsGet [] c2Rec.demographic 0 := by
  have hg : c2Rec ∈ calculateDemographicGaps ["AAM"] c2Frame [] := by
    rw [c2_gaps_eval]; exact List.mem_singleton_self _
  have hs : ("AAM", some c2Score) ∈ scorecardEntries ["AAM"] c2Frame [] := by
    rw [c2_score_eval]; exact List.mem_singleton_self _
  have hp : ("AAM", (20 : ℚ)) ∈ moduleGaps ["AAM"] c2Frame [] "M1" := by
    rw [c2_modgaps_eval]; exact List.mem_singleton_self _
  exact claim_C2_target_resolution_amended [] "AAM" "M1" ["AAM"] c2Frame
    c2Rec c2Score ("AAM", 20) hg hs hp

/-- Counterexample for C2 as stated: with an empty target configuration,
`calculate_demographic_gaps` resolves the target for "AAM" to 0.0 rather
than the claimed (lowercased, original, 10.0) chain, whose result is 10. -/
theorem claim_C2_target_resolution_counterexample :
    ∃ g ∈ calculateDemographicGaps ["AAM"] c2Frame [],
      g.targetPct = 0 ∧ specTargetFor [] g.demographic = 10 ∧
        g.targetPct ≠ specTargetFor [] g.demographic := by
  rw [c2_gaps_eval]
  refine ⟨c2Rec, List.mem_singleton_self _, rfl, rfl, by norm_num [c2Rec, specTargetFor,
    targetsGet?, strLower]⟩

/-- C3 amended: the per-group percentage operation excludes modules whose
summed `TOTAL` is 0 (division guarded) and `calculate_demographic_gaps`
returns an empty result on a zero overall total, but
`generate_equity_scorecard` does not guard: on a zero summed `TOTAL` every
scorecard entry is an undefined value (the unguarded `count/total`
division, NaN under numpy) rather than the claimed 0 %. -/
theorem claim_C3_division_guard_amended (demoCols : List String)
    (df dfz : AFrame) (t : Targets) (pr : PctRow)
    (hpr : pr ∈ calculateDemographicPercentages demoCols df)
    (hz : totalSum dfz = 0) :
    entityTotal df pr.entity ≠ 0 ∧
      calculateDemographicGaps demoCols dfz t = [] ∧
      scorecardEntries demoCols dfz t =
        (activeCols dfz demoCols).map (fun c => (c, none)) := by
  refine ⟨?_, ?_, ?_⟩
  · rw [calculateDemographicPercentages] at hpr
    by_cases h1 : demoCols.isEmpty || df.rows.isEmpty
    · rw [if_pos h1] at hpr
      exact absurd hpr (List.not_mem_nil pr)
    · rw [if_neg h1, List.mem_filterMap] at hpr
      obtain ⟨e, _, heq⟩ := hpr
      by_cases he : (entityRows df e).isEmpty
      · rw [if_pos he] at heq
        exact absurd heq (by simp)
      · rw [if_neg he] at heq
        by_cases h0 : entityTotal df e = 0
        · rw [if_pos h0] at heq
          exact absurd heq (by simp)
        · rw [if_neg h0] at heq
          have := Option.some.inj heq
          rw [← this]
          exact h0
  · rw [calculateDemographicGaps]
    by_cases h1 : demoCols.isEmpty || dfz.rows.isEmpty
    · rw [if_pos h1]
    · rw [if_neg h1, if_pos hz]
  · simp [scorecardEntries, hz]

theorem c3_pcts_mem :
    ({ entity := "M1", pcts := [("AAM", 10)] } : PctRow) ∈
      calculateDemographicPercentages ["AAM"] c3Frame := by
  rw [calculateDemographicPercentages, if_neg (by simp [c3Frame])]
  apply List.mem_filterMap.mpr
  refine ⟨"M1", by simp [c3Frame, uniqueFirst], ?_⟩
  have h1 : entityRows c3Frame "M1" = [⟨"M1", 50, [("AAM", 5)]⟩] := by
    simp [entityRows, c3Frame]
  have h2 : entityTotal c3Frame "M1" = 50 := by
    simp [entityTotal, h1]
  have h3 : entityColSum c3Frame "M1" "AAM" = 5 := by
    simp [entityColSum, h1, ARow.cell]
  rw [if_neg (by simp [h1]), if_neg (by rw [h2]; norm_num)]
  simp only [List.map_cons, List.map_nil]
  rw [h2, h3]
  simp [c3Frame]
  all_goals norm_num

/-- Witness for C3 amended: the "M1" percentage row of `c3Frame` together
with the zero-total frame `c3ZFrame`. -/
theorem claim_C3_division_guard_amended_witness :
    entityTotal c3Frame "M1" ≠ 0 ∧
      calculateDemographicGaps ["AAM"] c3ZFrame [] = [] ∧
      scorecardEntries ["AAM"] c3ZFrame [] =
        (activeCols c3ZFrame ["AAM"]).map (fun c => (c, none)) := by
  have hz : totalSum c3ZFrame = 0 := by norm_num [totalSum, c3ZFrame]
  exact claim_C3_division_guard_amended ["AAM"] c3Frame c3ZFrame [] _ c3_pcts_mem hz

/-- Counterexample for C3 as stated: on a frame whose summed `TOTAL` is 0,
`generate_equity_scorecard` performs its division anyway and the "AAM"
entry is an undefined value (`none`), not the claimed 0 % short-circuit. -/
theorem claim_C3_division_guard_counterexample :
    ∃ p ∈ scorecardEntries ["AAM"] c3ZFrame [], p.2 = none := by
  have hev : scorecardEntries ["AAM"] c3ZFrame [] = [("AAM", none)] := by
    norm_num [scorecardEntries, c3ZFrame, totalSum, activeCols]
  rw [hev]
  exact ⟨("AAM", none), List.mem_singleton_self _, rfl⟩

theorem consistencyIssues_ne_nil (demoCols : List String) (df : AFrame)
    (h : overTriples demoCols df ≠ []) :
    consistencyIssues demoCols df ≠ [] := by
  rw [consistencyIssues]
  cases hl : overTriples demoCols df with
  | nil => exact absurd hl h
  | cons a l => simp

/-- C6 amended: under-attribution (more than 10 % of `TOTAL` unassigned)
is reported only in the warnings list and never flips the display result,
but over-attribution (`demo_sum > TOTAL > 0`) is appended to the critical
issue list, and `display_health_check_results` returns `False`
("Action Required … before proceeding") whenever that list is non-empty —
so over-attribution does block, contrary to the advisory-only claim. -/
theorem claim_C6_inconsistent_sum_amended (demoCols : List String) (df : AFrame)
    (i : Nat) (r : ARow) (hir : df.rows[i]? = some r)
    (w inf : List HealthEntry) :
    (rowDemoSum demoCols df r > r.total ∧ r.total > 0 →
        (i, rowDemoSum demoCols df r, r.total) ∈ overTriples demoCols df ∧
          consistencyIssues demoCols df ≠ [] ∧
          displayHealthCheckResults (consistencyIssues demoCols df) w inf = false) ∧
      (rowDemoSum demoCols df r < r.total ∧ r.total > 0 ∧
          r.total - rowDemoSum demoCols df r > r.total * (1 / 10) →
        (i, r.total - rowDemoSum demoCols df r, r.total) ∈ underTriples demoCols df) ∧
      (overTriples demoCols df = [] →
        displayHealthCheckResults (consistencyIssues demoCols df) w inf = true) := by
  have henum : (i, r) ∈ df.rows.enum := List.mk_mem_enum_iff_getElem?.mpr hir
  refine ⟨?_, ?_, ?_⟩
  · rintro ⟨hover, hpos⟩
    have hmem : (i, rowDemoSum demoCols df r, r.total) ∈ overTriples demoCols df := by
      rw [overTriples, List.mem_filterMap]
      exact ⟨(i, r), henum, by rw [if_pos ⟨hover, hpos⟩]⟩
    have hne := consistencyIssues_ne_nil demoCols df (by
      intro hnil
      rw [hnil] at hmem
      exact List.not_mem_nil _ hmem)
    refine ⟨hmem, hne, ?_⟩
    rw [displayHealthCheckResults]
    cases hl : consistencyIssues demoCols df with
    | nil => exact absurd hl hne
    | cons a l => rfl
  · rintro ⟨hunder, hpos, hgap⟩
    rw [underTriples, List.mem_filterMap]
    exact ⟨(i, r), henum, by rw [if_pos ⟨hunder, hpos, hgap⟩]⟩
  · intro hempty
    rw [displayHealthCheckResults, consistencyIssues, hempty]
    rfl

theorem c6_row0_sum : rowDemoSum ["AAM"] c6Frame ⟨"M1", 10, [("AAM", 20)]⟩ = 20 := by
  simp [rowDemoSum, activeCols, ARow.cell, c6Frame]

theorem c6_row1_sum : rowDemoSum ["AAM"] c6Frame ⟨"M1", 100, [("AAM", 10)]⟩ = 10 := by
  simp [rowDemoSum, activeCols, ARow.cell, c6Frame]

/-- Witness for C6 amended: on `c6Frame` the over-attributed row enters the
over-attribution triples and makes the display return `False`; the
under-attributed row enters the under-attribution triples. -/
theorem claim_C6_inconsistent_sum_amended_witness :
    (0, (20 : ℚ), (10 : ℚ)) ∈ overTriples ["AAM"] c6Frame ∧
      consistencyIssues ["AAM"] c6Frame ≠ [] ∧
      displayHealthCheckResults (consistencyIssues ["AAM"] c6Frame) [] [] = false ∧
      (1, (90 : ℚ), (100 : ℚ)) ∈ underTriples ["AAM"] c6Frame := by
  have h0 := (claim_C6_inconsistent_sum_amended ["AAM"] c6Frame 0
    ⟨"M1", 10, [("AAM", 20)]⟩ rfl [] []).1 (by rw [c6_row0_sum]; norm_num)
  have h1 := ((claim_C6_inconsistent_sum_amended ["AAM"] c6Frame 1
    ⟨"M1", 100, [("AAM", 10)]⟩ rfl [] []).2).1 (by rw [c6_row1_sum]; norm_num)
  rw [c6_row0_sum] at h0
  rw [c6_row1_sum] at h1
  have h90 : (100 : ℚ) - 10 = 90 := by norm_num
  rw [h90] at h1
  exact ⟨h0.1, h0.2.1, h0.2.2, h1⟩

/-- Counterexample for C6 as stated: the over-attributed row of `c6Frame`
puts an entry in the critical issue list and
`display_health_check_results` returns `False` — the condition blocks
("Action Required") instead of being an advisory warning only. -/
theorem claim_C6_inconsistent_sum_counterexample :
    consistencyIssues ["AAM"] c6Frame ≠ [] ∧
      displayHealthCheckResults (consistencyIssues ["AAM"] c6Frame)
        (consistencyWarnings ["AAM"] c6Frame) [] = false := by
  have hmem : (0, (20 : ℚ), (10 : ℚ)) ∈ overTriples ["AAM"] c6Frame := by
    rw [overTriples, List.mem_filterMap]
    refine ⟨(0, ⟨"M1", 10, [("AAM", 20)]⟩), ?_, ?_⟩
    · exact List.mk_mem_enum_iff_getElem?.mpr rfl
    · rw [c6_row0_sum, if_pos (by norm_num)]
  have hne : overTriples ["AAM"] c6Frame ≠ [] := by
    intro hnil
    rw [hnil] at hmem
    exact List.not_mem_nil _ hmem
  have hcrit := consistencyIssues_ne_nil ["AAM"] c6Frame hne
  refine ⟨hcrit, ?_⟩
  rw [displayHealthCheckResults]
  cases hl : consistencyIssues ["AAM"] c6Frame with
  | nil => exact absurd hl hcrit
  | cons a l => rfl

theorem fieldFind_isSome_iff (cols vars : List String) :
    (fieldFind cols vars).isSome = true ↔
      ∃ col ∈ cols, ∃ v ∈ vars, strHasSub (norm col) v = true := by
  rw [fieldFind]
  cases hex : exactFind cols vars with
  | some c =>
    have hred : (Option.some c).orElse (fun _ => subFind cols vars) = some c := rfl
    rw [hred]
    simp only [Option.isSome_some, true_iff]
    obtain ⟨v, hv, hfind⟩ := List.exists_of_findSome?_eq_some hex
    have hc : c ∈ cols := List.mem_of_find?_eq_some hfind
    have hp := List.find?_some hfind
    have heq : norm c = v := by simpa using hp
    exact ⟨c, hc, v, hv, by rw [heq]; exact strHasSub_refl v⟩
  | none =>
    have hred : (Option.none).orElse (fun _ => subFind cols vars) = subFind cols vars := rfl
    rw [hred, subFind, List.find?_isSome]
    constructor
    · rintro ⟨c, hc, hpred⟩
      rw [List.any_eq_true] at hpred
      obtain ⟨v, hv, hsub⟩ := hpred
      exact ⟨c, hc, v, hv, hsub⟩
    · rintro ⟨c, hc, v, hv, hsub⟩
      exact ⟨c, hc, by rw [List.any_eq_true]; exact ⟨v, hv, hsub⟩⟩

theorem mem_missingRequired_iff (cols : List String) (f : String) :
    f ∈ missingRequired cols ↔
      ∃ p ∈ columnMappings, p.1 = f ∧
        ∀ col ∈ cols, ∀ v ∈ p.2, strHasSub (norm col) v = false := by
  rw [missingRequired, List.mem_map]
  constructor
  · rintro ⟨p, hp, rfl⟩
    rw [List.mem_filter] at hp
    refine ⟨p, hp.1, rfl, ?_⟩
    intro col hcol v hv
    have hnone := hp.2
    rw [Option.isNone_iff_eq_none] at hnone
    by_contra hne
    have hsub : strHasSub (norm col) v = true := by
      cases h : strHasSub (norm col) v with
      | false => exact absurd h hne
      | true => rfl
    have : (fieldFind cols p.2).isSome = true :=
      (fieldFind_isSome_iff cols p.2).mpr ⟨col, hcol, v, hv, hsub⟩
    rw [hnone] at this
    exact absurd this (by simp)
  · rintro ⟨p, hp, rfl, hall⟩
    refine ⟨p, ?_, rfl⟩
    rw [List.mem_filter]
    refine ⟨hp, ?_⟩
    rw [Option.isNone_iff_eq_none]
    cases hff : fieldFind cols p.2 with
    | none => rfl
    | some c =>
      have : (fieldFind cols p.2).isSome = true := by rw [hff]; rfl
      rw [fieldFind_isSome_iff] at this
      obtain ⟨col, hcol, v, hv, hsub⟩ := this
      rw [hall col hcol v hv] at hsub
      exact absurd hsub (by simp)

theorem variantsOf_of_mem : ∀ p ∈ columnMappings, variantsOf p.1 = p.2 := by
  decide

/-- C7 amended: when any canonical field is unmappable, loading fails with
an error enumerating exactly the unmappable fields (those for which no raw
column matches any variant exactly or by substring), listing all available
raw column names, and — per missing field — the **first three** variant
tokens only (`variations[:3]`), not the full searched list; on success the
matched columns are renamed to canonical names and every `TOTAL` cell is
the numeric coercion of the original cell (unparseable cells becoming 0). -/
theorem claim_C7_schema_mapping_amended (raw : RawFrame) :
    (∀ e, validateData raw = .error e →
        e.missing = missingRequired raw.cols ∧ e.missing ≠ [] ∧
          e.available = raw.cols ∧
          e.suggestions = e.missing.map (fun f => (f, (variantsOf f).take 3)) ∧
          ∀ f ∈ e.missing, ∀ col ∈ raw.cols, ∀ v ∈ variantsOf f,
            strHasSub (norm col) v = false) ∧
      (∀ d, validateData raw = .ok d →
        missingRequired raw.cols = [] ∧
          d.cols = raw.cols.map (renameCol (mappedColumns raw.cols)) ∧
          ∀ r ∈ d.rows, ∀ p ∈ r, p.1 = "TOTAL" →
            ∃ v0, p.2 = Val.num (toNumericOr0 v0)) := by
  constructor
  · intro e herr
    rw [validateData] at herr
    by_cases hm : (missingRequired raw.cols).isEmpty
    · rw [if_pos hm] at herr
      exact absurd herr (by simp)
    · rw [if_neg hm] at herr
      have he := (Except.error.inj herr).symm
      subst he
      refine ⟨rfl, ?_, rfl, rfl, ?_⟩
      · intro hnil
        have hnil' : missingRequired raw.cols = [] := hnil
        rw [hnil'] at hm
        exact hm rfl
      · intro f hf col hcol v hv
        have hf' : f ∈ missingRequired raw.cols := hf
        rw [mem_missingRequired_iff] at hf'
        obtain ⟨p, hp, hpf, hall⟩ := hf'
        have hvars := variantsOf_of_mem p hp
        rw [hpf] at hvars
        rw [hvars] at hv
        exact hall col hcol v hv
  · intro d hok
    rw [validateData] at hok
    by_cases hm : (missingRequired raw.cols).isEmpty
    · rw [if_pos hm] at hok
      have hd := (Except.ok.inj hok).symm
      subst hd
      refine ⟨List.isEmpty_iff.mp hm, rfl, ?_⟩
      intro r hr p hp hpt
      rw [coerceTotal] at hr
      simp only [List.mem_map] at hr
      obtain ⟨r0, _, rfl⟩ := hr
      rw [List.mem_map] at hp
      obtain ⟨p0, _, rfl⟩ := hp
      by_cases hb : (p0.1 == "TOTAL") = true
      · rw [if_pos hb]
        exact ⟨p0.2, rfl⟩
      · rw [if_neg hb] at hpt ⊢
        rw [hpt] at hb
        exact absurd (by simp) hb
    · rw [if_neg hm] at hok
      exact absurd hok (by simp)

theorem c7_error_eval : validateData c7Raw = .error c7Err := by rfl

theorem c7_ok_eval : validateData c7RawOk = .ok c7Ok := by rfl

/-- Witness for C7 amended: the error on `c7Raw` reports the missing
`EntityDesc` with the available columns and the first three variants, and
no variant of `EntityDesc` occurs in the column "Stuff"; the success on
`c7RawOk` renames columns and coerces the unparseable `TOTAL` cell. -/
theorem claim_C7_schema_mapping_amended_witness :
    c7Err.missing = missingRequired c7Raw.cols ∧
      c7Err.available = c7Raw.cols ∧
      c7Err.suggestions = c7Err.missing.map (fun f => (f, (variantsOf f).take 3)) ∧
      strHasSub (norm "Stuff") "module" = false ∧
      c7Ok.cols = c7RawOk.cols.map (renameCol (mappedColumns c7RawOk.cols)) ∧
      (∃ v0, Val.num 0 = Val.num (toNumericOr0 v0)) := by
  have herr := (claim_C7_schema_mapping_amended c7Raw).1 c7Err c7_error_eval
  have hok := (claim_C7_schema_mapping_amended c7RawOk).2 c7Ok c7_ok_eval
  refine ⟨herr.1, herr.2.2.1, herr.2.2.2.1, ?_, hok.2.1, ?_⟩
  · exact herr.2.2.2.2 "EntityDesc" (by decide) "Stuff" (by decide) "module" (by decide)
  · exact hok.2.2 [("TOTAL", .num 0)] (by decide) ("TOTAL", .num 0) (by decide) rfl

/-- Counterexample for C7 as stated: the error on `c7Raw` lists only the
first three `EntityDesc` variants, not the nine variant tokens that were
searched for. -/
theorem claim_C7_schema_mapping_counterexample :
    validateData c7Raw = .error c7Err ∧
      c7Err.suggestions = [("EntityDesc", ["entity", "entitydesc", "entity desc"])] ∧
      ["entity", "entitydesc", "entity desc"] ≠ variantsOf "EntityDesc" := by
  exact ⟨c7_error_eval, rfl, by decide⟩

theorem sum_map_div (l : List ℚ) (s : ℚ) :
    (l.map (fun x => x / s)).sum = l.sum / s := by
  induction l with
  | nil => simp
  | cons a l ih => simp [ih, add_div]

theorem sum_sq_le_sq_sum (l : List ℚ) (h : ∀ x ∈ l, 0 ≤ x) :
    simpsonSum l ≤ l.sum ^ 2 := by
  induction l with
  | nil => simp [simpsonSum]
  | cons a l ih =>
    have ha : 0 ≤ a := h a (List.mem_cons_self a l)
    have hl : ∀ x ∈ l, 0 ≤ x := fun x hx => h x (List.mem_cons_of_mem a hx)
    have hsl : 0 ≤ l.sum := List.sum_nonneg hl
    have := ih hl
    rw [simpsonSum] at this ⊢
    simp only [List.map_cons, List.sum_cons]
    nlinarith

theorem sum_sq_pos_of_mem (l : List ℚ) (x : ℚ) (hx : x ∈ l) (hx0 : x ≠ 0) :
    0 < simpsonSum l := by
  induction l with
  | nil => exact absurd hx (List.not_mem_nil x)
  | cons a l ih =>
    rw [simpsonSum, List.map_cons, List.sum_cons]
    have hrest : 0 ≤ (l.map (fun p => p ^ 2)).sum :=
      List.sum_nonneg (by
        intro y hy
        rw [List.mem_map] at hy
        obtain ⟨z, _, rfl⟩ := hy
        exact sq_nonneg z)
    rcases List.mem_cons.mp hx with rfl | hxl
    · have : 0 < x ^ 2 := by positivity
      linarith
    · have := ih hxl
      rw [simpsonSum] at this
      have ha : 0 ≤ a ^ 2 := sq_nonneg a
      linarith

theorem filter_pos_sum (l : List ℚ) (h : ∀ x ∈ l, 0 ≤ x) :
    (l.filter (fun x => 0 < x)).sum = l.sum := by
  induction l with
  | nil => simp
  | cons a l ih =>
    have ha : 0 ≤ a := h a (List.mem_cons_self a l)
    have hl : ∀ x ∈ l, 0 ≤ x := fun x hx => h x (List.mem_cons_of_mem a hx)
    by_cases hpos : 0 < a
    · rw [List.filter_cons, if_pos (by simpa using hpos), List.sum_cons,
        List.sum_cons, ih hl]
    · have ha0 : a = 0 := le_antisymm (not_lt.mp hpos) ha
      rw [List.filter_cons, if_neg (by simpa using hpos), List.sum_cons, ih hl,
        ha0, zero_add]

theorem sum_nonpos_of_nonpos (l : List ℚ) (h : ∀ x ∈ l, x ≤ 0) : l.sum ≤ 0 := by
  induction l with
  | nil => simp
  | cons a l ih =>
    rw [List.sum_cons]
    have := h a (List.mem_cons_self a l)
    have := ih (fun x hx => h x (List.mem_cons_of_mem a hx))
    linarith

theorem exists_pos_of_sum_pos (l : List ℚ) (h : 0 < l.sum) : ∃ x ∈ l, 0 < x := by
  by_contra hno
  push_neg at hno
  have : l.sum ≤ 0 := sum_nonpos_of_nonpos l hno
  linarith

theorem shannonTerm_nonneg (p : ℚ) (h1 : 0 < p) (h2 : p ≤ 1) : 0 ≤ shTerm p := by
  have hp : (0 : ℝ) < (p : ℝ) := by exact_mod_cast h1
  have hp1 : (p : ℝ) ≤ 1 := by exact_mod_cast h2
  have hlog : Real.log (p : ℝ) ≤ 0 := Real.log_nonpos (le_of_lt hp) hp1
  rw [shTerm]
  nlinarith

theorem shannonTerm_pos (p : ℚ) (h1 : 0 < p) (h2 : p < 1) : 0 < shTerm p := by
  have hp : (0 : ℝ) < (p : ℝ) := by exact_mod_cast h1
  have hp1 : (p : ℝ) < 1 := by exact_mod_cast h2
  have hlog : Real.log (p : ℝ) < 0 := Real.log_neg hp hp1
  rw [shTerm]
  nlinarith

theorem shannonSum_nonneg (ps : List ℚ) (hpos : ∀ p ∈ ps, 0 < p)
    (hsum : ps.sum ≤ 1) : 0 ≤ shannonSum ps := by
  rw [shannonSum]
  apply List.sum_nonneg
  intro y hy
  rw [List.mem_map] at hy
  obtain ⟨p, hp, rfl⟩ := hy
  have h1 := hpos p hp
  have h2 : p ≤ ps.sum :=
    List.single_le_sum (fun q hq => le_of_lt (hpos q hq)) p hp
  exact shannonTerm_nonneg p h1 (le_trans h2 hsum)

theorem sum_zero_of_nonneg (l : List ℝ) (h : ∀ x ∈ l, 0 ≤ x) (hs : l.sum = 0) :
    ∀ x ∈ l, x = 0 := by
  induction l with
  | nil => intro x hx; exact absurd hx (List.not_mem_nil x)
  | cons a l ih =>
    rw [List.sum_cons] at hs
    have ha : 0 ≤ a := h a (List.mem_cons_self a l)
    have hl : ∀ x ∈ l, 0 ≤ x := fun x hx => h x (List.mem_cons_of_mem a hx)
    have hsl : 0 ≤ l.sum := List.sum_nonneg hl
    have ha0 : a = 0 := by linarith
    have hl0 : l.sum = 0 := by linarith
    intro x hx
    rcases List.mem_cons.mp hx with rfl | hxl
    · exact ha0
    · exact ih hl hl0 x hxl

theorem sum_ones (l : List ℚ) (h : ∀ x ∈ l, x = 1) : l.sum = l.length := by
  induction l with
  | nil => simp
  | cons a l ih =>
    rw [List.sum_cons, h a (List.mem_cons_self a l),
      ih (fun x hx => h x (List.mem_cons_of_mem a hx))]
    simp
    ring

theorem shannonSum_eq_zero_iff (ps : List ℚ) (hpos : ∀ p ∈ ps, 0 < p)
    (hsum : ps.sum = 1) : shannonSum ps = 0 ↔ ps.length = 1 := by
  constructor
  · intro h0
    have hterms : ∀ y ∈ ps.map shTerm, 0 ≤ y := by
      intro y hy
      rw [List.mem_map] at hy
      obtain ⟨p, hp, rfl⟩ := hy
      have h2 : p ≤ ps.sum :=
        List.single_le_sum (fun q hq => le_of_lt (hpos q hq)) p hp
      exact shannonTerm_nonneg p (hpos p hp) (hsum ▸ h2)
    have hzero := sum_zero_of_nonneg _ hterms h0
    have hone : ∀ p ∈ ps, p = 1 := by
      intro p hp
      by_contra hne
      have hlt : p < 1 := by
        have h2 : p ≤ ps.sum :=
          List.single_le_sum (fun q hq => le_of_lt (hpos q hq)) p hp
        rw [hsum] at h2
        exact lt_of_le_of_ne h2 hne
      have := shannonTerm_pos p (hpos p hp) hlt
      have hmem : shTerm p ∈ ps.map shTerm := List.mem_map_of_mem shTerm hp
      have := hzero _ hmem
      linarith
    have hlen : (ps.length : ℚ) = 1 := by
      rw [← sum_ones ps hone, hsum]
    exact_mod_cast hlen
  · intro hlen
    cases ps with
    | nil => exact absurd hlen (by simp)
    | cons p ps' =>
      cases ps' with
      | nil =>
        rw [List.sum_cons, List.sum_nil, add_zero] at hsum
        rw [shannonSum, List.map_cons, List.map_nil, List.sum_cons, List.sum_nil,
          hsum, add_zero, shTerm]
        simp
      | cons q ps'' => exact absurd hlen (by simp)

theorem advProportions_pos (v : List ℚ) : ∀ p ∈ advProportions v, 0 < p := by
  intro p hp
  rw [advProportions, List.mem_filter] at hp
  simpa using hp.2

theorem advProportions_sum (v : List ℚ) (hv : ∀ x ∈ v, 0 ≤ x)
    (hs : 0 < v.sum) : (advProportions v).sum = 1 := by
  rw [advProportions]
  have hmapped : ∀ p ∈ v.map (fun x => x / v.sum), 0 ≤ p := by
    intro p hp
    rw [List.mem_map] at hp
    obtain ⟨x, hx, rfl⟩ := hp
    exact div_nonneg (hv x hx) (le_of_lt hs)
  rw [filter_pos_sum _ hmapped, sum_map_div, div_self (ne_of_gt hs)]

theorem div_pos_iff_pos (s x : ℚ) (hs : 0 < s) : 0 < x / s ↔ 0 < x := by
  constructor
  · intro h
    rcases div_pos_iff.mp h with ⟨hx, _⟩ | ⟨_, hneg⟩
    · exact hx
    · linarith
  · intro h
    exact div_pos h hs

theorem advProportions_length (v : List ℚ) (hs : 0 < v.sum) :
    (advProportions v).length = (v.filter (fun x => 0 < x)).length := by
  rw [advProportions, List.filter_map, List.length_map]
  congr 1
  apply List.filter_congr
  intro x _
  simp only [Function.comp]
  rw [decide_eq_decide]
  exact div_pos_iff_pos v.sum x hs

/-- C5 amended: the self-normalising `calculate_diversity_index` satisfies
the claimed bounds for every nonnegative count vector with positive sum
(Simpson in [0,1), Shannon ≥ 0, Shannon = 0 iff exactly one entry is
positive).  For `calculate_diversity_metrics`, which normalises by the
summed `TOTAL` column instead of the vector's own sum, the bounds
additionally require the demographic column sums to stay within the summed
`TOTAL`, and the Shannon-zero characterisation requires them to exhaust it
exactly (over-attributed counts break the bounds). -/
theorem claim_C5_diversity_amended
    (v : List ℚ) (hv : ∀ x ∈ v, 0 ≤ x) (hvs : 0 < v.sum)
    (demoCols : List String) (df : AFrame)
    (hc : ∀ c ∈ dpActiveCounts demoCols df, 0 ≤ c)
    (hT : 0 < totalSum df)
    (hle : (dpActiveCounts demoCols df).sum ≤ totalSum df) :
    (0 ≤ advSimpson v ∧ advSimpson v < 1) ∧
      0 ≤ advShannon v ∧
      (advShannon v = 0 ↔ (v.filter (fun x => 0 < x)).length = 1) ∧
      ((∃ c ∈ dpActiveCounts demoCols df, 0 < c) →
        0 ≤ dpSimpson demoCols df ∧ dpSimpson demoCols df < 1 ∧
          0 ≤ dpShannon demoCols df) ∧
      ((dpActiveCounts demoCols df).sum = totalSum df →
        (dpShannon demoCols df = 0 ↔
          ((dpActiveCounts demoCols df).filter (fun c => 0 < c)).length = 1)) := by
  have hsne : v.sum ≠ 0 := ne_of_gt hvs
  have hpos := advProportions_pos v
  have hsum1 := advProportions_sum v hv hvs
  have hpex : ∃ p ∈ advProportions v, 0 < p := by
    obtain ⟨x, hx, hx0⟩ := exists_pos_of_sum_pos v hvs
    refine ⟨x / v.sum, ?_, div_pos hx0 hvs⟩
    rw [advProportions, List.mem_filter]
    exact ⟨List.mem_map_of_mem _ hx, by simpa using div_pos hx0 hvs⟩
  refine ⟨?_, ?_, ?_, ?_, ?_⟩
  · rw [advSimpson, if_neg hsne]
    obtain ⟨p, hp, hp0⟩ := hpex
    constructor
    · have hub := sum_sq_le_sq_sum (advProportions v)
        (fun q hq => le_of_lt (hpos q hq))
      rw [hsum1] at hub
      norm_num at hub
      linarith
    · have hlb := sum_sq_pos_of_mem (advProportions v) p hp (ne_of_gt hp0)
      linarith
  · rw [advShannon, if_neg hsne]
    exact shannonSum_nonneg _ hpos (le_of_eq hsum1)
  · rw [advShannon, if_neg hsne, shannonSum_eq_zero_iff _ hpos hsum1,
      advProportions_length v hvs]
  · rintro ⟨c, hcm, hc0⟩
    set counts := dpActiveCounts demoCols df with hcounts
    set t := totalSum df with ht
    have hqnn : ∀ q ∈ counts.map (fun c => c / t), 0 ≤ q := by
      intro q hq
      rw [List.mem_map] at hq
      obtain ⟨x, hx, rfl⟩ := hq
      exact div_nonneg (hc x hx) (le_of_lt hT)
    have hqsum : (counts.map (fun c => c / t)).sum ≤ 1 := by
      rw [sum_map_div]
      rw [div_le_one hT]
      exact hle
    have hqsum0 : 0 ≤ (counts.map (fun c => c / t)).sum :=
      List.sum_nonneg hqnn
    refine ⟨?_, ?_, ?_⟩
    · rw [dpSimpson, ← hcounts, ← ht]
      have hub := sum_sq_le_sq_sum (counts.map (fun c => c / t)) hqnn
      nlinarith
    · rw [dpSimpson, ← hcounts, ← ht]
      have hlb := sum_sq_pos_of_mem (counts.map (fun c => c / t)) (c / t)
        (List.mem_map_of_mem _ hcm) (ne_of_gt (div_pos hc0 hT))
      linarith
    · rw [dpShannon, ← hcounts, ← ht]
      apply shannonSum_nonneg
      · intro p hp
        rw [List.mem_map] at hp
        obtain ⟨x, hx, rfl⟩ := hp
        rw [List.mem_filter] at hx
        exact div_pos (by simpa using hx.2) hT
      · rw [sum_map_div, filter_pos_sum _ hc, div_le_one hT]
        exact hle
  · intro heq
    set counts := dpActiveCounts demoCols df with hcounts
    set t := totalSum df with ht
    have hpos' : ∀ p ∈ (counts.filter (fun c => 0 < c)).map (fun c => c / t),
        0 < p := by
      intro p hp
      rw [List.mem_map] at hp
      obtain ⟨x, hx, rfl⟩ := hp
      rw [List.mem_filter] at hx
      exact div_pos (by simpa using hx.2) hT
    have hsum' : ((counts.filter (fun c => 0 < c)).map (fun c => c / t)).sum = 1 := by
      rw [sum_map_div, filter_pos_sum _ hc, heq, div_self (ne_of_gt hT)]
    rw [dpShannon, ← hcounts, ← ht,
      shannonSum_eq_zero_iff _ hpos' hsum', List.length_map]

theorem c5_counts_eval : dpActiveCounts ["AAM", "AAF"] c5WFrame = [5, 5] := by
  simp [dpActiveCounts, activeCols, colSum, c5WFrame, ARow.cell]

/-- Witness for C5 amended: the even 5/5 split with `TOTAL` 10 and the
vector `[1, 1]` satisfy every hypothesis; both Simpson values are in
[0,1), both Shannon values are nonnegative, and the Shannon-zero
characterisations hold. -/
theorem claim_C5_diversity_amended_witness :
    (0 ≤ advSimpson [1, 1] ∧ advSimpson [1, 1] < 1) ∧
      0 ≤ advShannon [1, 1] ∧
      (advShannon [1, 1] = 0 ↔
        (([1, 1] : List ℚ).filter (fun x => 0 < x)).length = 1) ∧
      (0 ≤ dpSimpson ["AAM", "AAF"] c5WFrame ∧
        dpSimpson ["AAM", "AAF"] c5WFrame < 1 ∧
        0 ≤ dpShannon ["AAM", "AAF"] c5WFrame) ∧
      (dpShannon ["AAM", "AAF"] c5WFrame = 0 ↔
        ((dpActiveCounts ["AAM", "AAF"] c5WFrame).filter
          (fun c => 0 < c)).length = 1) := by
  have hT : totalSum c5WFrame = 10 := by norm_num [totalSum, c5WFrame]
  have h := claim_C5_diversity_amended [1, 1]
    (by intro x hx; simp at hx; subst hx; norm_num)
    (by norm_num)
    ["AAM", "AAF"] c5WFrame
    (by rw [c5_counts_eval]; intro c hc; simp at hc; subst hc; norm_num)
    (by rw [hT]; norm_num)
    (by rw [c5_counts_eval, hT]; norm_num)
  exact ⟨h.1, h.2.1, h.2.2.1,
    h.2.2.2.1 ⟨5, by rw [c5_counts_eval]; simp, by norm_num⟩,
    h.2.2.2.2 (by rw [c5_counts_eval, hT]; norm_num)⟩

/-- Counterexample for C5 as stated: with `TOTAL` 10 and an `AAM` count of
30 — a non-empty, non-degenerate vector with positive total whose counts
merely over-attribute, which the claim explicitly allows — the computed
Simpson index of `calculate_diversity_metrics` is −8, outside [0,1). -/
theorem claim_C5_diversity_counterexample :
    0 < totalSum c5Frame ∧
      (∃ c ∈ dpActiveCounts ["AAM"] c5Frame, 0 < c) ∧
      dpSimpson ["AAM"] c5Frame < 0 := by
  have h1 : dpActiveCounts ["AAM"] c5Frame = [30] := by
    simp [dpActiveCounts, activeCols, colSum, c5Frame, ARow.cell]
  have hT : totalSum c5Frame = 10 := by norm_num [totalSum, c5Frame]
  refine ⟨by rw [hT]; norm_num,
    ⟨30, by rw [h1]; exact List.mem_singleton_self _, by norm_num⟩, ?_⟩
  rw [dpSimpson, h1, hT]
  norm_num [simpsonSum]

theorem find?_map_key (l : List String) (f : String → ℚ) (c : String)
    (hc : c ∈ l) :
    ((l.map (fun x => (x, f x))).find? (fun p => p.1 == c)) = some (c, f c) := by
  induction l with
  | nil => exact absurd hc (List.not_mem_nil c)
  | cons a l ih =>
    by_cases h : a = c
    · subst h
      simp [List.find?]
    · rw [List.map_cons, List.find?_cons_of_neg _ (by simpa using h)]
      rcases List.mem_cons.mp hc with rfl | hcl
      · exact absurd rfl h
      · exact ih hcl

/-- C4: in both heatmap builders, for every produced figure the column
keys are the supplied demographic columns restricted to those present (in
the supplied order); every row belongs to a module whose summed `TOTAL` is
non-zero; and in every row the hover-text list is exactly the per-column
hover cell of that row's module while the numeric row is its gap
projection — so the numeric cell and text cell at any (i, j) describe the
same (module of row i, demographic of column j) pair. -/
theorem claim_C4_heatmap_alignment (df : AFrame) (demoCols : List String)
    (targets : Targets) (hm hm' : HeatmapData)
    (ha : alignedHeatmap df demoCols targets = some hm)
    (hb : improvedHeatmap df demoCols targets = some hm') :
    (hm.cols = demoCols.filter (fun c => df.cols.contains c) ∧
      hm.cols.Sublist demoCols) ∧
      (∀ row ∈ hm.rows,
        entityTotal df row.module ≠ 0 ∧
          row.yLabel = truncateAt 40 row.module ∧
          row.hover = hm.cols.map (mkHoverCell df targets row.module) ∧
          row.z = row.hover.map (fun cell => cell.gap) ∧
          (∀ cell ∈ row.hover, cell.module = row.module) ∧
          ∀ j (hj : j < hm.cols.length),
            row.hover[j]? = some (mkHoverCell df targets row.module hm.cols[j]) ∧
              row.z[j]? = some (mkHoverCell df targets row.module hm.cols[j]).gap) ∧
      (hm'.cols = demoCols.filter (fun c => df.cols.contains c) ∧
        hm'.cols.Sublist demoCols) ∧
      (∀ row ∈ hm'.rows,
        entityTotal df row.module ≠ 0 ∧
          row.yLabel = truncateAt 40 row.module ∧
          row.hover = hm'.cols.map (mkHoverCell df targets row.module) ∧
          row.z = row.hover.map (fun cell => cell.gap) ∧
          (∀ cell ∈ row.hover, cell.module = row.module) ∧
          ∀ j (hj : j < hm'.cols.length),
            row.hover[j]? = some (mkHoverCell df targets row.module hm'.cols[j]) ∧
              row.z[j]? = some (mkHoverCell df targets row.module hm'.cols[j]).gap) := by
  have hrowfacts : ∀ (cols : List String) (row : HeatRow),
      row.hover = cols.map (mkHoverCell df targets row.module) →
      row.z = row.hover.map (fun cell => cell.gap) →
      (∀ cell ∈ row.hover, cell.module = row.module) ∧
        ∀ j (hj : j < cols.length),
          row.hover[j]? = some (mkHoverCell df targets row.module cols[j]) ∧
            row.z[j]? = some (mkHoverCell df targets row.module cols[j]).gap := by
    intro cols row hh hz
    constructor
    · intro cell hcell
      rw [hh, List.mem_map] at hcell
      obtain ⟨c, _, rfl⟩ := hcell
      rfl
    · intro j hj
      have h1 : row.hover[j]? = some (mkHoverCell df targets row.module cols[j]) := by
        rw [hh, List.getElem?_map, List.getElem?_eq_getElem hj]
        rfl
      refine ⟨h1, ?_⟩
      rw [hz, List.getElem?_map, h1]
      rfl
  simp only [alignedHeatmap] at ha
  split_ifs at ha with ha1 ha2 ha3
  simp only [improvedHeatmap] at hb
  split_ifs at hb with hb1 hb2 hb3 hb4
  have hhm := (Option.some.inj ha).symm
  have hhm' := (Option.some.inj hb).symm
  subst hhm
  subst hhm'
  refine ⟨⟨rfl, List.filter_sublist demoCols⟩, ?_, ⟨rfl, List.filter_sublist demoCols⟩, ?_⟩
  · -- aligned heatmap: rows
    intro row hrow
    simp only [List.mem_filterMap] at hrow
    obtain ⟨e, _, heq⟩ := hrow
    by_cases h0 : entityTotal df e = 0
    · rw [if_pos h0] at heq
      exact absurd heq (by simp)
    · rw [if_neg h0] at heq
      have hr := Option.some.inj heq
      rw [← hr]
      refine ⟨h0, rfl, rfl, ?_, ?_⟩
      · rw [List.map_map]
      · exact hrowfacts (demoCols.filter (fun c => df.cols.contains c))
          _ rfl (by rw [List.map_map])
  · -- improved heatmap: rows
    intro row hrow
    simp only [List.mem_map] at hrow
    obtain ⟨pr, hpr, hreq⟩ := hrow
    simp only [List.mem_filterMap] at hpr
    obtain ⟨e, _, heq⟩ := hpr
    by_cases h0 : entityTotal df e = 0
    · rw [if_pos h0] at heq
      exact absurd heq (by simp)
    · rw [if_neg h0] at heq
      have hpre := Option.some.inj heq
      rw [← hpre] at hreq
      have hcellfn : ∀ c ∈ demoCols.filter (fun c => df.cols.contains c),
          (match ((improvedRowData df targets e
              (demoCols.filter (fun c => df.cols.contains c))).find?
                (fun p => p.1 == c)).map Prod.snd with
            | some g => { mkHoverCell df targets e c with gap := g }
            | none => improvedMissingCell df targets e c) =
            mkHoverCell df targets e c := by
        intro c hc
        rw [improvedRowData, find?_map_key _ _ c hc]
        rfl
      have hzfn : ∀ c ∈ demoCols.filter (fun c => df.cols.contains c),
          (match ((improvedRowData df targets e
              (demoCols.filter (fun c => df.cols.contains c))).find?
                (fun p => p.1 == c)).map Prod.snd with
            | some g => g
            | none => 0) = (mkHoverCell df targets e c).gap := by
        intro c hc
        rw [improvedRowData, find?_map_key _ _ c hc]
        rfl
      rw [← hreq]
      have hhover := List.map_congr_left hcellfn
      have hzs := List.map_congr_left hzfn
      refine ⟨h0, rfl, hhover, ?_, ?_⟩
      · rw [hzs, hhover, List.map_map]
        rfl
      · exact hrowfacts (demoCols.filter (fun c => df.cols.contains c)) _
          hhover (by rw [hzs, hhover, List.map_map]; rfl)

theorem c4_aligned_eval : alignedHeatmap c4Frame ["AAM"] [] = some c4HM := by
  simp [alignedHeatmap, c4Frame, uniqueFirst, sortStrings, insertStr,
    entityTotal, entityRows, c4HM, c4Row, c4Cell]

theorem c4_improved_eval : improvedHeatmap c4Frame ["AAM"] [] = some c4HM := by
  simp [improvedHeatmap, c4Frame, uniqueFirst, sortStrings, insertStr,
    improvedRowData, entityTotal, entityRows, c4HM, c4Row, c4Cell]

/-- Witness for C4: on `c4Frame` both builders yield the same figure whose
single row is aligned — the hover list is the per-column cell list of
module "M1", the numeric row is its gap projection, and the (0,0) cells of
both matrices describe ("M1", "AAM"). -/
theorem claim_C4_heatmap_alignment_witness :
    c4HM.cols = ["AAM"].filter (fun c => c4Frame.cols.contains c) ∧
      entityTotal c4Frame "M1" ≠ 0 ∧
      c4Row.hover = c4HM.cols.map (mkHoverCell c4Frame [] "M1") ∧
      c4Row.z = c4Row.hover.map (fun cell => cell.gap) ∧
      c4Row.hover[0]? = some (mkHoverCell c4Frame [] "M1" "AAM") ∧
      c4Row.z[0]? = some (mkHoverCell c4Frame [] "M1" "AAM").gap := by
  have h := claim_C4_heatmap_alignment c4Frame ["AAM"] [] c4HM c4HM
    c4_aligned_eval c4_improved_eval
  have hrow := h.2.1 c4Row (List.mem_singleton_self c4Row)
  obtain ⟨ht, _, hh, hz, _, hidx⟩ := hrow
  have hj := hidx 0 (by decide)
  exact ⟨h.1.1, ht, hh, hz, hj.1, hj.2⟩

end Demo
